import Mathlib

/-!
# Verification development for `log/config.go` (TL-Data-Agent)

A shallow embedding of the logging configurator: the time formatter `formatDate`,
the sink composition of `prepZap`, the capture core's level gate, the directive
loops of `updateScopes`, `Configure` and `Sync`.

Conventions of the embedding.
* A Go `string` is a Lean `String`; a Go `error` is the `String` of its text and a
  nil error is `Option.none`.
* Go `int` values are `Int`; `/` and `%` on them are `Int.tdiv` and `Int.tmod`
  (truncation towards zero, remainder with the sign of the dividend).
* A Go `byte` is a `Nat` below 256; `byte(x)` keeps the low eight bits and byte
  addition wraps modulo 256.
* Package-level variables (`writeFn`, `syncFn`, `errorSink`, the scope registry, the
  loggers installed by `Configure`) are the fields of an explicit `Globals` record
  that every stateful function takes and returns.
-/

namespace TLDataAgent.Log

/-! ## Time formatter (`formatDate`, config.go 111-148) -/

/-- Go conversion `byte(x)` of an `int`: the low eight bits of `x`. -/
def byte (x : Int) : Nat := (x % 256).toNat

/-- Addition of two Go `byte` values, wrapping modulo 256. -/
def addByte (a b : Nat) : Nat := (a + b) % 256

/-- Go integer division `a / b`, truncating towards zero. -/
def goDiv (a b : Int) : Int := Int.tdiv a b

/-- Go integer remainder `a % b`, with the sign of the dividend. -/
def goMod (a b : Int) : Int := Int.tmod a b

/-- What `formatDate` reads from `t.UTC()`: the results of `Date()`, `Clock()` and
`Nanosecond()`. The calendar arithmetic of package `time` is outside the repository. -/
structure Time where
  year : Int
  month : Int
  day : Int
  hour : Int
  minute : Int
  second : Int
  nanosecond : Int
  deriving DecidableEq, Repr

/-- The 27 bytes `formatDate` writes into `buf` (config.go 117-145). -/
def formatDateBuf (t : Time) : List Nat :=
  let year := t.year
  let month := t.month
  let day := t.day
  let hour := t.hour
  let minute := t.minute
  let second := t.second
  let micros := goDiv t.nanosecond 1000
  [ addByte (byte (goMod (goDiv year 1000) 10)) '0'.toNat,
    addByte (byte (goMod (goDiv year 100) 10)) '0'.toNat,
    addByte (byte (goMod (goDiv year 10) 10)) '0'.toNat,
    addByte (byte (goMod year 10)) '0'.toNat,
    '-'.toNat,
    addByte (byte (goDiv month 10)) '0'.toNat,
    addByte (byte (goMod month 10)) '0'.toNat,
    '-'.toNat,
    addByte (byte (goDiv day 10)) '0'.toNat,
    addByte (byte (goMod day 10)) '0'.toNat,
    'T'.toNat,
    addByte (byte (goDiv hour 10)) '0'.toNat,
    addByte (byte (goMod hour 10)) '0'.toNat,
    ':'.toNat,
    addByte (byte (goDiv minute 10)) '0'.toNat,
    addByte (byte (goMod minute 10)) '0'.toNat,
    ':'.toNat,
    addByte (byte (goDiv second 10)) '0'.toNat,
    addByte (byte (goMod second 10)) '0'.toNat,
    '.'.toNat,
    addByte (byte (goMod (goDiv micros 100000) 10)) '0'.toNat,
    addByte (byte (goMod (goDiv micros 10000) 10)) '0'.toNat,
    addByte (byte (goMod (goDiv micros 1000) 10)) '0'.toNat,
    addByte (byte (goMod (goDiv micros 100) 10)) '0'.toNat,
    addByte (byte (goMod (goDiv micros 10) 10)) '0'.toNat,
    addByte (byte (goMod micros 10)) '0'.toNat,
    'Z'.toNat ]

/-- The `zapcore.PrimitiveArrayEncoder` as far as `formatDate` uses it: the strings
appended so far, each a list of bytes. -/
abbrev PrimitiveArrayEncoder := List (List Nat)

/-- Go `formatDate(t, enc)`: `enc.AppendString(string(buf))`. -/
def formatDate (t : Time) (enc : PrimitiveArrayEncoder) : PrimitiveArrayEncoder :=
  enc ++ [formatDateBuf t]

/-- The fields of a `time.Time` in UTC are in their calendar ranges. -/
def Time.inRange (t : Time) : Prop :=
  1 ≤ t.month ∧ t.month ≤ 12 ∧ 1 ≤ t.day ∧ t.day ≤ 31 ∧ 0 ≤ t.hour ∧ t.hour ≤ 23 ∧
  0 ≤ t.minute ∧ t.minute ≤ 59 ∧ 0 ≤ t.second ∧ t.second ≤ 59 ∧
  0 ≤ t.nanosecond ∧ t.nanosecond ≤ 999999999

/-- Wall-clock order of two UTC instants given by their calendar fields: `t1` is not
after `t2`. -/
def Time.notAfter (t1 t2 : Time) : Prop :=
  t1.year < t2.year ∨ (t1.year = t2.year ∧
  (t1.month < t2.month ∨ (t1.month = t2.month ∧
  (t1.day < t2.day ∨ (t1.day = t2.day ∧
  (t1.hour < t2.hour ∨ (t1.hour = t2.hour ∧
  (t1.minute < t2.minute ∨ (t1.minute = t2.minute ∧
  (t1.second < t2.second ∨ (t1.second = t2.second ∧
  t1.nanosecond ≤ t2.nanosecond)))))))))))

/-- Lexicographic "less than or equal" on byte strings. -/
def lexLe (a b : List Nat) : Prop := a = b ∨ List.Lex (· < ·) a b

/-- The positions of the separators in the 27-byte string. -/
def separatorPositions : List Nat := [4, 7, 10, 13, 16, 19, 26]

/-- The `k` low decimal digits of `n` as ASCII bytes, most significant first: the
digit-by-digit decomposition `formatDate` spells out field by field. -/
def digs : Nat → Nat → List Nat
  | 0, _ => []
  | k + 1, n => digs k (n / 10) ++ [n % 10 + 48]

/-- An ASCII digit `'0'..'9'`. -/
def isDigit (b : Nat) : Prop := '0'.toNat ≤ b ∧ b ≤ '9'.toNat

/-- The shape `YYYY-MM-DDTHH:MM:SS.uuuuuuZ` of a byte string: 27 bytes, the separators
at their positions and an ASCII digit everywhere else. -/
def WellFormed27 (s : List Nat) : Prop :=
  s.length = 27 ∧ s[4]? = some '-'.toNat ∧ s[7]? = some '-'.toNat ∧
  s[10]? = some 'T'.toNat ∧ s[13]? = some ':'.toNat ∧ s[16]? = some ':'.toNat ∧
  s[19]? = some '.'.toNat ∧ s[26]? = some 'Z'.toNat ∧
  ∀ i, i < 27 → i ∉ separatorPositions → ∃ b, s[i]? = some b ∧ isDigit b

/-- Two instants agree on year, month, day, hour, minute, second and microsecond. -/
def Time.sameMicros (t1 t2 : Time) : Prop :=
  t1.year = t2.year ∧ t1.month = t2.month ∧ t1.day = t2.day ∧ t1.hour = t2.hour ∧
  t1.minute = t2.minute ∧ t1.second = t2.second ∧
  goDiv t1.nanosecond 1000 = goDiv t2.nanosecond 1000

/-! ## Levels and scopes (scope.go, not under src/) -/

/-- Modelled from the spec: type `Level` of scope.go, which is not under src/; config.go
names its five constants in `levelToZap`. The spec orders them
`Debug < Info < Warn < Error < None`, `None` disabling output. -/
inductive Level where
  | NoneLevel
  | ErrorLevel
  | WarnLevel
  | InfoLevel
  | DebugLevel
  deriving DecidableEq, Repr

/-- Modelled from the spec: the position of a level in the spec's order
`Debug < Info < Warn < Error < None` (scope.go is not under src/). -/
def Level.rank : Level → Nat
  | .DebugLevel => 0
  | .InfoLevel => 1
  | .WarnLevel => 2
  | .ErrorLevel => 3
  | .NoneLevel => 4

/-- Modelled from the spec: type `Scope` of scope.go, which is not under src/: the three
independently updatable settings of a scope. -/
structure Scope where
  outputLevel : Level
  stackTraceLevel : Level
  logCallers : Bool
  deriving DecidableEq, Repr

/-- Modelled from the spec: `SetOutputLevel(l)` of scope.go stores the output level. -/
def Scope.SetOutputLevel (s : Scope) (l : Level) : Scope := { s with outputLevel := l }

/-- Modelled from the spec: `SetStackTraceLevel(l)` of scope.go stores the stack-trace
level. -/
def Scope.SetStackTraceLevel (s : Scope) (l : Level) : Scope := { s with stackTraceLevel := l }

/-- Modelled from the spec: `SetLogCallers(b)` of scope.go stores the caller-capture
flag. -/
def Scope.SetLogCallers (s : Scope) (b : Bool) : Scope := { s with logCallers := b }

/-- Modelled from the spec: `GetLogCallers()` of scope.go loads the caller-capture flag. -/
def Scope.GetLogCallers (s : Scope) : Bool := s.logCallers

/-- Modelled from the spec: `GetStackTraceLevel()` of scope.go loads the stack-trace
level. -/
def Scope.GetStackTraceLevel (s : Scope) : Level := s.stackTraceLevel

/-- Modelled from the spec: `GetOutputLevel()` of scope.go loads the output level. -/
def Scope.GetOutputLevel (s : Scope) : Level := s.outputLevel

/-- Modelled from the spec: `ErrorEnabled()` of scope.go; the enabling predicates are
derived from `outputLevel`, and records below the output level are dropped. -/
def Scope.ErrorEnabled (s : Scope) : Bool := decide (s.outputLevel.rank ≤ Level.ErrorLevel.rank)

/-- Modelled from the spec: `WarnEnabled()` of scope.go. -/
def Scope.WarnEnabled (s : Scope) : Bool := decide (s.outputLevel.rank ≤ Level.WarnLevel.rank)

/-- Modelled from the spec: `InfoEnabled()` of scope.go. -/
def Scope.InfoEnabled (s : Scope) : Bool := decide (s.outputLevel.rank ≤ Level.InfoLevel.rank)

/-- Modelled from the spec: `DebugEnabled()` of scope.go. -/
def Scope.DebugEnabled (s : Scope) : Bool := decide (s.outputLevel.rank ≤ Level.DebugLevel.rank)

/-- Modelled from the spec: the name of the distinguished scope, `DefaultScopeName` of
scope.go. -/
def DefaultScopeName : String := "default"

/-- Modelled from the spec: the process-wide scope registry of scope.go. It contains the
scope named `default` at all times, which is also the package variable `defaultScope`;
names are unique. -/
structure Registry where
  defaultScope : Scope
  others : String → Option Scope

/-- Modelled from the spec: `Scopes()` of scope.go, the snapshot mapping from scope name
to scope; `allScopes[s]` in `updateScopes` is `Scopes r s`. -/
def Scopes (r : Registry) (name : String) : Option Scope :=
  if name = DefaultScopeName then some r.defaultScope else r.others name

/-- The registry after a setter was called on the scope registered under `name` (the
snapshot holds pointers, so the setter's store is seen through the registry). -/
def Registry.store (r : Registry) (name : String) (s : Scope) : Registry :=
  if name = DefaultScopeName then { r with defaultScope := s }
  else { r with others := fun n => if n = name then some s else r.others n }

/-! ## zap values used by config.go -/

namespace zapcore

/-- Level constant `zapcore.DebugLevel`. -/
def DebugLevel : Int := -1
/-- Level constant `zapcore.InfoLevel`. -/
def InfoLevel : Int := 0
/-- Level constant `zapcore.WarnLevel`. -/
def WarnLevel : Int := 1
/-- Level constant `zapcore.ErrorLevel`. -/
def ErrorLevel : Int := 2
/-- Level constant `zapcore.DPanicLevel`. -/
def DPanicLevel : Int := 3
/-- Level constant `zapcore.PanicLevel`. -/
def PanicLevel : Int := 4
/-- Level constant `zapcore.FatalLevel`. -/
def FatalLevel : Int := 5

end zapcore

/-- Constant `none` of config.go line 17: disables output and stack tracing. -/
def noneLevel : Int := 100

/-- Table `levelToZap` of config.go lines 19-25. -/
def levelToZap : Level → Int
  | .DebugLevel => zapcore.DebugLevel
  | .InfoLevel => zapcore.InfoLevel
  | .WarnLevel => zapcore.WarnLevel
  | .ErrorLevel => zapcore.ErrorLevel
  | .NoneLevel => noneLevel

/-- Modelled from the spec: type `Options` of options.go, which is not under src/, with
the fields config.go reads. -/
structure Options where
  OutputPaths : List String
  ErrorOutputPaths : List String
  RotateOutputPath : String
  RotationMaxSize : Int
  RotationMaxAge : Int
  RotationMaxBackups : Int
  JSONEncoding : Bool
  outputLevels : String
  stackTraceLevels : String
  logCallers : String
  LogGrpc : Bool
  deriving DecidableEq, Repr

/-- The `lumberjack.Logger` literal built in `prepZap` (config.go 57-63). -/
structure LumberjackLogger where
  Filename : String
  MaxSize : Int
  MaxBackups : Int
  MaxAge : Int
  LocalTime : Bool
  deriving DecidableEq, Repr

/-- A non-nil `zapcore.WriteSyncer`. A nil one is `Option.none`. -/
inductive WriteSyncer where
  /-- A sink `zap.Open` built over the given paths. -/
  | opened (paths : List String)
  /-- A sink that accepts and drops every write, `zapcore.AddSync(ioutil.Discard)`. -/
  | discard
  /-- The rotating sink `zapcore.AddSync(&lumberjack.Logger{...})`. -/
  | rotater (l : LumberjackLogger)
  /-- The sink `zapcore.NewMultiWriteSyncer(a, b)`, writing to `a` then `b`. -/
  | multi (a b : WriteSyncer)
  deriving DecidableEq, Repr

/-- The encoder chosen by `options.JSONEncoding` (config.go 48-53); both use the same
`encCfg`. -/
inductive Encoder where
  | json
  | console
  deriving DecidableEq, Repr

/-- The level enablers `prepZap` hands to `zapcore.NewCore`. -/
inductive LevelEnabler where
  /-- The enabler `zap.NewAtomicLevelAt(l)`. -/
  | atomicLevelAt (l : Int)
  /-- The closure `enabler` of config.go 89-99, which reads `defaultScope`. -/
  | enablerFunc
  deriving DecidableEq, Repr

/-- The value `zapcore.NewCore(enc, sink, enab)`. -/
structure Core where
  enc : Encoder
  out : Option WriteSyncer
  enab : LevelEnabler
  deriving DecidableEq, Repr

/-- The closure `enabler` of config.go 89-99: a `switch` on the zap level with the
default scope's predicates, falling through to `DebugEnabled`. -/
def enabler (defaultScope : Scope) (lvl : Int) : Bool :=
  if lvl = zapcore.ErrorLevel then defaultScope.ErrorEnabled
  else if lvl = zapcore.WarnLevel then defaultScope.WarnEnabled
  else if lvl = zapcore.InfoLevel then defaultScope.InfoEnabled
  else defaultScope.DebugEnabled

/-- Method `Enabled(lvl)` of a level enabler; an atomic level at `l` enables `lvl ≥ l`. -/
def LevelEnabler.Enabled (e : LevelEnabler) (defaultScope : Scope) (lvl : Int) : Bool :=
  match e with
  | .atomicLevelAt l => decide (l ≤ lvl)
  | .enablerFunc => enabler defaultScope lvl

/-- The result of `prepZap`: the two cores and the error sink, or the error together
with the error sink `closeErrorSink()` was called on, if any. -/
inductive PrepResult where
  | ok (core captureCore : Core) (errSink : WriteSyncer)
  | fail (err : String) (closedErrorSink : Option WriteSyncer)
  deriving DecidableEq, Repr

/-- The rotating sink `prepZap` builds (config.go 55-64): nil when `RotateOutputPath`
is empty. -/
def rotaterSink (options : Options) : Option WriteSyncer :=
  if options.RotateOutputPath ≠ "" then
    some (.rotater
      { Filename := options.RotateOutputPath
        MaxSize := options.RotationMaxSize
        MaxBackups := options.RotationMaxAge
        MaxAge := options.RotationMaxBackups
        LocalTime := true })
  else none

/-- Go `prepZap(options)` (config.go 33-104). `zapOpen` stands for `zap.Open`, which is
outside the repository: the sink it opens over the paths, or its error. -/
def prepZap (zapOpen : List String → Except String WriteSyncer) (options : Options) :
    PrepResult :=
  let enc : Encoder := if options.JSONEncoding then .json else .console
  let rotaterSink := rotaterSink options
  match zapOpen options.ErrorOutputPaths with
  | .error err => .fail err none
  | .ok errSink =>
    let opened : Except String (Option WriteSyncer) :=
      if options.OutputPaths.length > 0 then
        match zapOpen options.OutputPaths with
        | .error err => .error err
        | .ok s => .ok (some s)
      else .ok none
    match opened with
    | .error err => .fail err (some errSink)
    | .ok outputSink =>
      let sink : Option WriteSyncer :=
        match rotaterSink, outputSink with
        | some r, some o => some (.multi o r)
        | some r, none => some r
        | none, o => o
      .ok { enc := enc, out := sink, enab := .atomicLevelAt zapcore.DebugLevel }
        { enc := enc, out := sink, enab := .enablerFunc } errSink

/-! ## Directive strings and `updateScopes` (config.go 150-204) -/

/-- Splitting a character sequence at every occurrence of `sep`; the result always has
one more part than there are separators. -/
def splitChars (sep : Char) : List Char → List (List Char)
  | [] => [[]]
  | c :: cs =>
    if c = sep then [] :: splitChars sep cs
    else
      match splitChars sep cs with
      | [] => [[c]]
      | h :: t => (c :: h) :: t

/-- Go `strings.Split(s, sep)` for a one-character separator. -/
def strings.Split (s : String) (sep : Char) : List String :=
  (splitChars sep s.data).map String.mk

/-- The error `fmt.Errorf("unknown scope '%s' specified", s)`. -/
def unknownScope (s : String) : String := "unknown scope '" ++ s ++ "' specified"

/-- Modelled from the spec: the level names of a directive (`stringToLevel` of scope.go,
not under src/): the lowercase level tokens. -/
def stringToLevel (l : String) : Option Level :=
  if l = "debug" then some .DebugLevel
  else if l = "info" then some .InfoLevel
  else if l = "warn" then some .WarnLevel
  else if l = "error" then some .ErrorLevel
  else if l = "none" then some .NoneLevel
  else none

/-- Modelled from the spec: `convertScopedLevel` of scope.go, which is not under src/.
An item is either `level`, which applies to the `default` scope, or `scope:level`;
an unknown level name is a parse error. The texts of the parse errors are not given by
the spec. -/
def convertScopedLevel (sl : String) : Except String (String × Level) :=
  match strings.Split sl ':' with
  | [l] =>
    match stringToLevel l with
    | some level => .ok (DefaultScopeName, level)
    | none => .error ("invalid output level '" ++ sl ++ "'")
  | [s, l] =>
    match stringToLevel l with
    | some level => .ok (s, level)
    | none => .error ("invalid output level '" ++ sl ++ "'")
  | _ => .error ("invalid output level format '" ++ sl ++ "'")

/-- The loop over level directives that `updateScopes` runs twice (config.go 161-172
with `SetOutputLevel`, 176-187 with `SetStackTraceLevel`): parse the item, look the
scope up in the snapshot, call the setter or return the error. Returns the registry as
the loop left it and the error, if any. `conv` stands for `convertScopedLevel`. -/
def levelsLoop (conv : String → Except String (String × Level))
    (set : Scope → Level → Scope) : List String → Registry → Registry × Option String
  | [], r => (r, none)
  | sl :: rest, r =>
    match conv sl with
    | .error err => (r, some err)
    | .ok (s, l) =>
      match Scopes r s with
      | some scope => levelsLoop conv set rest (r.store s (set scope l))
      | none => (r, some (unknownScope s))

/-- The loop over `logCallers` (config.go 191-201): skip an empty item, else look the
scope up and call `SetLogCallers(true)` or return the error. -/
def callersLoop : List String → Registry → Registry × Option String
  | [], r => (r, none)
  | s :: rest, r =>
    if s = "" then callersLoop rest r
    else
      match Scopes r s with
      | some scope => callersLoop rest (r.store s (scope.SetLogCallers true))
      | none => (r, some (unknownScope s))

/-- A value of Go type `func() error` as stored in `syncFn`: a nil function or the
method value `core.Sync`. -/
inductive SyncFunc where
  | nilFunc
  | coreSync (core : Core)
  deriving DecidableEq, Repr

/-- The logger `zap.New(core, opts...)` as far as `Configure` configures it. -/
structure Logger where
  core : Core
  errorOutput : Option WriteSyncer
  callerSkip : Nat
  addCaller : Bool
  addStacktrace : Option Int
  deriving DecidableEq, Repr

/-- The package-level state config.go reads and writes. An `atomic.Value` that was never
stored to is `none` (its `Load()` returns the nil interface). -/
structure Globals where
  /-- Slot `writeFn`: the core whose `Write` method value is stored. -/
  writeFn : Option Core
  /-- Slot `syncFn` (config.go 251). -/
  syncFn : Option SyncFunc
  /-- Slot `errorSink`. -/
  errorSink : Option WriteSyncer
  /-- The scope registry. -/
  registry : Registry
  /-- The logger installed by `zap.ReplaceGlobals`. -/
  globalLogger : Option Logger
  /-- The logger installed by `zap.RedirectStdLog`. -/
  stdLogLogger : Option Logger
  /-- The logger installed by `grpclog.SetLogger`. -/
  grpcLogger : Option Logger

/-- Go `updateScopes(options, core, errSink)` (config.go 150-204): the state it leaves
and the error it returns. -/
def updateScopes (conv : String → Except String (String × Level)) (options : Options)
    (core : Core) (errSink : WriteSyncer) (g : Globals) : Globals × Option String :=
  let g := { g with writeFn := some core, syncFn := some (.coreSync core),
                    errorSink := some errSink }
  match levelsLoop conv Scope.SetOutputLevel (strings.Split options.outputLevels ',')
      g.registry with
  | (r, some err) => ({ g with registry := r }, some err)
  | (r, none) =>
    match levelsLoop conv Scope.SetStackTraceLevel
        (strings.Split options.stackTraceLevels ',') r with
    | (r, some err) => ({ g with registry := r }, some err)
    | (r, none) =>
      match callersLoop (strings.Split options.logCallers ',') r with
      | (r, some err) => ({ g with registry := r }, some err)
      | (r, none) => ({ g with registry := r }, none)

/-- Go `Configure(options)` (config.go 210-248): the state it leaves and the error it
returns. -/
def Configure (conv : String → Except String (String × Level))
    (zapOpen : List String → Except String WriteSyncer) (options : Options) (g : Globals) :
    Globals × Option String :=
  match prepZap zapOpen options with
  | .fail err _ => (g, some err)
  | .ok core captureCore errSink =>
    match updateScopes conv options core errSink g with
    | (g, some err) => (g, some err)
    | (g, none) =>
      let opts : Logger :=
        { core := captureCore, errorOutput := some errSink, callerSkip := 1,
          addCaller := false, addStacktrace := none }
      let opts := if g.registry.defaultScope.GetLogCallers then { opts with addCaller := true }
        else opts
      let l := g.registry.defaultScope.GetStackTraceLevel
      let opts := if l ≠ Level.NoneLevel then { opts with addStacktrace := some (levelToZap l) }
        else opts
      let captureLogger := opts
      let g := { g with globalLogger := some captureLogger, stdLogLogger := some captureLogger }
      let g := if options.LogGrpc then
          { g with grpcLogger := some { captureLogger with callerSkip := captureLogger.callerSkip + 2 } }
        else g
      (g, none)

/-- How a Go call ends: it panics or it returns a value. -/
inductive Outcome (α : Type) where
  | panic (msg : String)
  | returned (a : α)
  deriving DecidableEq, Repr

/-- Go `Sync()` (config.go 255-262). `syncFn.Load().(func() error)` is a type assertion
in its one-result form, which panics when `Load()` returns the nil interface; a stored
nil function passes the assertion and fails the `s != nil` test. `runSync` stands for
calling the stored `core.Sync`. -/
def Sync (runSync : Core → Option String) (g : Globals) : Outcome (Option String) :=
  match g.syncFn with
  | none => .panic "interface conversion: interface \x7b\x7d is nil, not func() error"
  | some .nilFunc => .returned none
  | some (.coreSync core) => .returned (runSync core)

/-! ## Sequential reading of the directives -/

/-- Which directive string an item comes from. -/
inductive Kind where
  | output
  | stack
  | callers
  deriving DecidableEq, Repr

/-- All items of the three directive strings in the order `updateScopes` processes
them: `outputLevels`, then `stackTraceLevels`, then `logCallers`. -/
def directiveItems (options : Options) : List (Kind × String) :=
  (strings.Split options.outputLevels ',').map (fun s => (Kind.output, s)) ++
  ((strings.Split options.stackTraceLevels ',').map (fun s => (Kind.stack, s)) ++
   (strings.Split options.logCallers ',').map (fun s => (Kind.callers, s)))

/-- The effect of one item on the registry, or the error it raises. -/
def applyItem (conv : String → Except String (String × Level)) (r : Registry) :
    Kind × String → Except String Registry
  | (.output, sl) =>
    match conv sl with
    | .error err => .error err
    | .ok (s, l) =>
      match Scopes r s with
      | some scope => .ok (r.store s (scope.SetOutputLevel l))
      | none => .error (unknownScope s)
  | (.stack, sl) =>
    match conv sl with
    | .error err => .error err
    | .ok (s, l) =>
      match Scopes r s with
      | some scope => .ok (r.store s (scope.SetStackTraceLevel l))
      | none => .error (unknownScope s)
  | (.callers, s) =>
    if s = "" then .ok r
    else
      match Scopes r s with
      | some scope => .ok (r.store s (scope.SetLogCallers true))
      | none => .error (unknownScope s)

/-- Applying items one after the other until one fails: the registry reached and the
error of the failing item, if any. -/
def runItems (conv : String → Except String (String × Level)) :
    List (Kind × String) → Registry → Registry × Option String
  | [], r => (r, none)
  | it :: rest, r =>
    match applyItem conv r it with
    | .error err => (r, some err)
    | .ok r1 => runItems conv rest r1

/-- The item is accepted: a level item parses and names a registered scope; a
`logCallers` item is empty or names a registered scope. -/
def itemOk (conv : String → Except String (String × Level)) (r : Registry) :
    Kind × String → Prop
  | (.callers, s) => s = "" ∨ (Scopes r s).isSome
  | (_, sl) => ∃ s l, conv sl = .ok (s, l) ∧ (Scopes r s).isSome

/-- The item names the unregistered scope `s`: a level item that parses to scope `s`,
or the non-empty `logCallers` item `s`, with `s` not a key of the snapshot. -/
def namesUnknown (conv : String → Except String (String × Level)) (r : Registry)
    (s : String) : Kind × String → Prop
  | (.callers, x) => x ≠ "" ∧ x = s ∧ Scopes r s = none
  | (_, sl) => ∃ l, conv sl = .ok (s, l) ∧ Scopes r s = none

/-- The level of the last directive among `items` that names scope `n`, if any. -/
def lastLevel (conv : String → Except String (String × Level)) :
    List String → String → Option Level
  | [], _ => none
  | sl :: rest, n =>
    match lastLevel conv rest n with
    | some l => some l
    | none =>
      match conv sl with
      | .ok (s, l) => if s = n then some l else none
      | .error _ => none

/-- A `zap.Open` that opens every path list. -/
def openAll (paths : List String) : Except String WriteSyncer := .ok (.opened paths)

/-- A registry holding only the `default` scope, at `Info`, stack traces at `None`,
caller capture off (the bootstrap defaults of the spec). -/
def bootRegistry : Registry :=
  { defaultScope := { outputLevel := .InfoLevel, stackTraceLevel := .NoneLevel,
                      logCallers := false },
    others := fun _ => none }

/-- The state before any `Configure`: nothing stored in the slots, no logger
installed. -/
def bootGlobals : Globals :=
  { writeFn := none, syncFn := none, errorSink := none, registry := bootRegistry,
    globalLogger := none, stdLogLogger := none, grpcLogger := none }

/-- Two registries hold the same scope names. -/
def sameKeys (r r1 : Registry) : Prop := ∀ n, (Scopes r1 n).isSome = (Scopes r n).isSome

/-- Options of scenario S3: stdout output, stderr error sink, and an output-level
directive for the scope `ghost`, which is not registered. -/
def ghostOptions : Options :=
  { OutputPaths := ["stdout"], ErrorOutputPaths := ["stderr"], RotateOutputPath := "",
    RotationMaxSize := 0, RotationMaxAge := 0, RotationMaxBackups := 0,
    JSONEncoding := false, outputLevels := "ghost:debug",
    stackTraceLevels := "default:none", logCallers := "", LogGrpc := false }

/-- Options whose `logCallers` names two unregistered scopes, `ghost` before
`phantom`. -/
def twoGhostsOptions : Options :=
  { ghostOptions with outputLevels := "default:info", logCallers := "ghost,phantom" }

/-- Options whose first output-level directive is valid and whose second names the
unregistered scope `ghost`. -/
def partialOptions : Options :=
  { ghostOptions with outputLevels := "default:debug,ghost:debug" }

/-- The user core `prepZap` builds for `ghostOptions` and its variants. -/
def stdoutCore : Core :=
  { enc := .console, out := some (.opened ["stdout"]),
    enab := .atomicLevelAt zapcore.DebugLevel }

/-- The capture core `prepZap` builds for `ghostOptions` and its variants. -/
def stdoutCaptureCore : Core :=
  { enc := .console, out := some (.opened ["stdout"]), enab := .enablerFunc }

/-- What the level directives `items`, applied left to right with the setter `set`, do
to the scope registered under `n`. -/
def applyNamed (conv : String → Except String (String × Level))
    (set : Scope → Level → Scope) : List String → String → Scope → Scope
  | [], _, sc => sc
  | sl :: rest, n, sc =>
    match conv sl with
    | .ok (s, l) =>
      if s = n then applyNamed conv set rest n (set sc l) else applyNamed conv set rest n sc
    | .error _ => applyNamed conv set rest n sc

/-- Options with three output-level directives, two of them for `default`, and two
stack-trace directives for `default`. -/
def lastWinsOptions : Options :=
  { ghostOptions with outputLevels := "default:debug,warn,default:error",
                      stackTraceLevels := "error,default:warn" }

/-- The effective write sink of `prepZap` is `sink`: the call succeeds with error sink
`errSink` and both cores write to `sink`. -/
def sinkIs (zapOpen : List String → Except String WriteSyncer) (options : Options)
    (errSink : WriteSyncer) (sink : Option WriteSyncer) : Prop :=
  ∃ core captureCore, prepZap zapOpen options = .ok core captureCore errSink ∧
    core.out = sink ∧ captureCore.out = sink

/-- Options with neither output paths nor a rotation path. -/
def noSinkOptions : Options :=
  { ghostOptions with OutputPaths := [], outputLevels := "default:info" }

/-- Options of scenario S6 with distinct rotation limits: stdout plus a rotating file,
1 MB per file, backups kept 7 days, at most 3 backups. -/
def rotateOptions : Options :=
  { ghostOptions with RotateOutputPath := "/tmp/t.log", RotationMaxSize := 1,
                      RotationMaxAge := 7, RotationMaxBackups := 3,
                      outputLevels := "default:info" }

/-- Options with a rotation path only. -/
def rotateOnlyOptions : Options := { rotateOptions with OutputPaths := [] }

/-- Options whose three directive strings are empty. -/
def emptyDirectivesOptions : Options :=
  { ghostOptions with outputLevels := "", stackTraceLevels := "", logCallers := "" }

/-- Options with valid level directives and `logCallers` made of empty items around
`default`. -/
def paddedCallersOptions : Options :=
  { ghostOptions with outputLevels := "default:info", logCallers := ",default,," }

/-- The same options with the empty items of `logCallers` removed. -/
def plainCallersOptions : Options :=
  { ghostOptions with outputLevels := "default:info", logCallers := "default" }

/-- The non-empty items of a list of directive items. -/
def nonEmptyItems (items : List String) : List String :=
  items.filter (fun s => decide (s ≠ ""))

/-- A registry holding only the `default` scope with the given output level. -/
def registryAt (l : Level) : Registry :=
  { defaultScope := { outputLevel := l, stackTraceLevel := .NoneLevel, logCallers := false },
    others := fun _ => none }

/-- Options whose `outputLevels` names the unregistered scope `ghost` and whose
`stackTraceLevels` is a valid directive for `default`. -/
def stackAfterGhostOptions : Options :=
  { ghostOptions with stackTraceLevels := "default:error" }

/-- Modelled from the spec: `DefaultOptions()` of options.go, which is not under src/:
stderr output, stderr error sink, console encoding, the `default` scope at `Info`,
stack traces at `None`, caller capture off, no rotation, gRPC capture off. The spec gives
no default rotation limits; with no rotation path `prepZap` does not read them. -/
def DefaultOptions : Options :=
  { OutputPaths := ["stderr"], ErrorOutputPaths := ["stderr"], RotateOutputPath := "",
    RotationMaxSize := 0, RotationMaxAge := 0, RotationMaxBackups := 0,
    JSONEncoding := false, outputLevels := "default:info",
    stackTraceLevels := "default:none", logCallers := "", LogGrpc := false }

/-- Go `init()` (config.go 27-30): `_ = Configure(DefaultOptions())`, run once when the
package is loaded; the error is dropped. `defaults` stands for `DefaultOptions()`. -/
def init (conv : String → Except String (String × Level))
    (zapOpen : List String → Except String WriteSyncer) (defaults : Options) (g : Globals) :
    Globals :=
  (Configure conv zapOpen defaults g).1

/-! ## Theorems -/

/-! ### The time formatter -/

theorem addByte_byte_digit (x : Int) (h0 : 0 ≤ x) (h9 : x ≤ 9) :
    addByte (byte x) 48 = x.toNat + 48 := by
  unfold addByte byte
  omega

theorem goDiv_nonneg_eq (a b : Int) (ha : 0 ≤ a) (hb : 0 ≤ b) : goDiv a b = a / b :=
  Int.tdiv_eq_ediv ha hb

theorem goMod_nonneg_eq (a b : Int) (ha : 0 ≤ a) (hb : 0 ≤ b) : goMod a b = a % b :=
  Int.tmod_eq_emod ha hb

theorem formatDateBuf_of_nonneg (t : Time) (hy : 0 ≤ t.year) (hr : t.inRange) :
    formatDateBuf t =
      [ (t.year / 1000 % 10).toNat + 48, (t.year / 100 % 10).toNat + 48,
        (t.year / 10 % 10).toNat + 48, (t.year % 10).toNat + 48, 45,
        (t.month / 10).toNat + 48, (t.month % 10).toNat + 48, 45,
        (t.day / 10).toNat + 48, (t.day % 10).toNat + 48, 84,
        (t.hour / 10).toNat + 48, (t.hour % 10).toNat + 48, 58,
        (t.minute / 10).toNat + 48, (t.minute % 10).toNat + 48, 58,
        (t.second / 10).toNat + 48, (t.second % 10).toNat + 48, 46,
        (t.nanosecond / 1000 / 100000 % 10).toNat + 48,
        (t.nanosecond / 1000 / 10000 % 10).toNat + 48,
        (t.nanosecond / 1000 / 1000 % 10).toNat + 48,
        (t.nanosecond / 1000 / 100 % 10).toNat + 48,
        (t.nanosecond / 1000 / 10 % 10).toNat + 48,
        (t.nanosecond / 1000 % 10).toNat + 48, 90 ] := by
  obtain ⟨h1, h2, h3, h4, h5, h6, h7, h8, h9, h10, h11, h12⟩ := hr
  have c0 : '0'.toNat = 48 := rfl
  have c1 : '-'.toNat = 45 := rfl
  have c2 : 'T'.toNat = 84 := rfl
  have c3 : ':'.toNat = 58 := rfl
  have c4 : '.'.toNat = 46 := rfl
  have c5 : 'Z'.toNat = 90 := rfl
  unfold formatDateBuf
  simp (disch := omega) only [goDiv_nonneg_eq, goMod_nonneg_eq, addByte_byte_digit,
    c0, c1, c2, c3, c4, c5]

theorem formatDateBuf_digs (t : Time) (hy : 0 ≤ t.year) (hr : t.inRange) :
    formatDateBuf t =
      digs 4 t.year.toNat ++ 45 :: (digs 2 t.month.toNat ++ 45 :: (digs 2 t.day.toNat ++
        84 :: (digs 2 t.hour.toNat ++ 58 :: (digs 2 t.minute.toNat ++ 58 ::
          (digs 2 t.second.toNat ++ 46 :: (digs 6 (t.nanosecond.toNat / 1000) ++ [90])))))) := by
  rw [formatDateBuf_of_nonneg t hy hr]
  obtain ⟨h1, h2, h3, h4, h5, h6, h7, h8, h9, h10, h11, h12⟩ := hr
  simp only [digs, List.nil_append, List.cons_append, List.cons.injEq, and_true, true_and]
  repeat' apply And.intro
  all_goals omega

theorem digs_lex (k : Nat) : ∀ x y : Nat, x < y → y < 10 ^ k → ∀ l1 l2 : List Nat,
    List.Lex (· < ·) (digs k x ++ l1) (digs k y ++ l2) := by
  induction k with
  | zero => intro x y hxy hy; simp at hy; omega
  | succ k ih =>
    intro x y hxy hy l1 l2
    simp only [digs, List.append_assoc]
    have hy10 : y / 10 < 10 ^ k := by
      rw [pow_succ] at hy
      omega
    rcases Nat.lt_or_ge (x / 10) (y / 10) with hlt | hge
    · exact ih _ _ hlt hy10 _ _
    · have he : x / 10 = y / 10 := by omega
      rw [he]
      exact List.Lex.append_left _ (List.Lex.rel (by omega)) _

theorem lexLe_cons (a b : Nat) (l1 l2 : List Nat) (h : a < b ∨ (a = b ∧ lexLe l1 l2)) :
    lexLe (a :: l1) (b :: l2) := by
  rcases h with h | ⟨rfl, h | h⟩
  · exact Or.inr (List.Lex.rel h)
  · exact Or.inl (by rw [h])
  · exact Or.inr (List.Lex.cons h)

theorem lexLe_digs (k x y : Nat) (l1 l2 : List Nat) (hy : y < 10 ^ k)
    (h : x < y ∨ (x = y ∧ lexLe l1 l2)) : lexLe (digs k x ++ l1) (digs k y ++ l2) := by
  rcases h with h | ⟨rfl, h | h⟩
  · exact Or.inr (digs_lex k x y h hy l1 l2)
  · exact Or.inl (by rw [h])
  · exact Or.inr (List.Lex.append_left _ h _)

theorem formatDateBuf_mono (t1 t2 : Time) (hy1 : 0 ≤ t1.year) (hy2 : t2.year ≤ 9999)
    (hr1 : t1.inRange) (hr2 : t2.inRange) (h : t1.notAfter t2) :
    lexLe (formatDateBuf t1) (formatDateBuf t2) := by
  have hy : 0 ≤ t2.year := by
    unfold Time.notAfter at h
    omega
  rw [formatDateBuf_digs t1 hy1 hr1, formatDateBuf_digs t2 hy hr2]
  obtain ⟨h1, h2, h3, h4, h5, h6, h7, h8, h9, h10, h11, h12⟩ := hr1
  obtain ⟨g1, g2, g3, g4, g5, g6, g7, g8, g9, g10, g11, g12⟩ := hr2
  refine lexLe_digs 4 _ _ _ _ (by norm_num; omega) ?_
  rcases h with h | ⟨e, h⟩
  · exact Or.inl (by omega)
  refine Or.inr ⟨by omega, lexLe_cons _ _ _ _ (Or.inr ⟨rfl, ?_⟩)⟩
  refine lexLe_digs 2 _ _ _ _ (by norm_num; omega) ?_
  rcases h with h | ⟨e, h⟩
  · exact Or.inl (by omega)
  refine Or.inr ⟨by omega, lexLe_cons _ _ _ _ (Or.inr ⟨rfl, ?_⟩)⟩
  refine lexLe_digs 2 _ _ _ _ (by norm_num; omega) ?_
  rcases h with h | ⟨e, h⟩
  · exact Or.inl (by omega)
  refine Or.inr ⟨by omega, lexLe_cons _ _ _ _ (Or.inr ⟨rfl, ?_⟩)⟩
  refine lexLe_digs 2 _ _ _ _ (by norm_num; omega) ?_
  rcases h with h | ⟨e, h⟩
  · exact Or.inl (by omega)
  refine Or.inr ⟨by omega, lexLe_cons _ _ _ _ (Or.inr ⟨rfl, ?_⟩)⟩
  refine lexLe_digs 2 _ _ _ _ (by norm_num; omega) ?_
  rcases h with h | ⟨e, h⟩
  · exact Or.inl (by omega)
  refine Or.inr ⟨by omega, lexLe_cons _ _ _ _ (Or.inr ⟨rfl, ?_⟩)⟩
  refine lexLe_digs 2 _ _ _ _ (by norm_num; omega) ?_
  rcases h with h | ⟨e, h⟩
  · exact Or.inl (by omega)
  refine Or.inr ⟨by omega, lexLe_cons _ _ _ _ (Or.inr ⟨rfl, ?_⟩)⟩
  refine lexLe_digs 6 _ _ _ _ (by norm_num; omega) ?_
  rcases Nat.lt_or_ge (t1.nanosecond.toNat / 1000) (t2.nanosecond.toNat / 1000) with hlt | hge
  · exact Or.inl hlt
  · exact Or.inr ⟨by omega, Or.inl rfl⟩

/-- C9 (as amended): for every UTC instant whose year is not negative (years above 9999
included) and whose other fields are in their calendar ranges, the string `formatDate`
appends is exactly 27 bytes long, has `-` at 4 and 7, `T` at 10, `:` at 13 and 16, `.` at
19, `Z` at 26 and an ASCII digit at each of the other 20 positions. -/
theorem formatDate_wellFormed (t : Time) (enc : PrimitiveArrayEncoder) (hy : 0 ≤ t.year)
    (hr : t.inRange) : ∃ s, formatDate t enc = enc ++ [s] ∧ WellFormed27 s := by
  refine ⟨formatDateBuf t, rfl, ?_⟩
  rw [formatDateBuf_of_nonneg t hy hr]
  obtain ⟨h1, h2, h3, h4, h5, h6, h7, h8, h9, h10, h11, h12⟩ := hr
  refine ⟨rfl, rfl, rfl, rfl, rfl, rfl, rfl, rfl, ?_⟩
  intro i hi hsep
  have d0 : '0'.toNat = 48 := rfl
  have d9 : '9'.toNat = 57 := rfl
  unfold isDigit
  rw [d0, d9]
  interval_cases i <;> simp [separatorPositions] at hsep ⊢ <;> omega

/-- Witness for C9: the instant 2024-02-29T13:05:09.123456789Z. -/
theorem formatDate_wellFormed_witness :
    ∃ s, formatDate ⟨2024, 2, 29, 13, 5, 9, 123456789⟩ [] = [] ++ [s] ∧ WellFormed27 s :=
  formatDate_wellFormed ⟨2024, 2, 29, 13, 5, 9, 123456789⟩ [] (by decide)
    (by unfold Time.inRange; decide)

/-- Counterexample to C9 as stated: for the year -1 (1 January, midnight UTC) the byte
at position 3 is `byte(-1) + 48 = 47`, a slash, so the year is written as `000`
followed by a slash and the string has a non-digit at a digit position. -/
theorem formatDate_negative_year_not_wellFormed :
    Time.inRange ⟨-1, 1, 1, 0, 0, 0, 0⟩ ∧
    formatDate ⟨-1, 1, 1, 0, 0, 0, 0⟩ [] =
      [[48, 48, 48, 47, 45, 48, 49, 45, 48, 49, 84, 48, 48, 58, 48, 48, 58, 48, 48, 46,
        48, 48, 48, 48, 48, 48, 90]] ∧
    ¬ WellFormed27 (formatDateBuf ⟨-1, 1, 1, 0, 0, 0, 0⟩) := by
  refine ⟨by unfold Time.inRange; decide, by decide, ?_⟩
  intro h
  obtain ⟨b, hb, hd⟩ := h.2.2.2.2.2.2.2.2 3 (by decide) (by decide)
  have hb3 : (formatDateBuf ⟨-1, 1, 1, 0, 0, 0, 0⟩)[3]? = some 47 := by decide
  rw [hb3] at hb
  have h47 : b = 47 := (Option.some.inj hb).symm
  subst h47
  exact absurd hd.1 (by decide)

/-- C10 (as amended): for two UTC instants with years in 0..9999 and in-range fields,
`t1` not after `t2` makes the string for `t1` lexicographically less than or equal to
the string for `t2`; and (for all instants) the string depends only on year, month,
day, hour, minute, second and microsecond. -/
theorem formatDate_monotonic (t1 t2 : Time) (hy1 : 0 ≤ t1.year) (hy2 : t2.year ≤ 9999)
    (hr1 : t1.inRange) (hr2 : t2.inRange) (h : t1.notAfter t2) :
    lexLe (formatDateBuf t1) (formatDateBuf t2) ∧
    (∀ enc, formatDate t1 enc = enc ++ [formatDateBuf t1]) ∧
    (∀ u1 u2 : Time, u1.sameMicros u2 → formatDateBuf u1 = formatDateBuf u2) := by
  refine ⟨formatDateBuf_mono t1 t2 hy1 hy2 hr1 hr2 h, fun _ => rfl, ?_⟩
  rintro u1 u2 ⟨e1, e2, e3, e4, e5, e6, e7⟩
  unfold formatDateBuf
  simp only [e1, e2, e3, e4, e5, e6, e7]

/-- Witness for C10: 1999-12-31T23:59:59.999999999Z is not after 2000-01-01T00:00:00Z. -/
theorem formatDate_monotonic_witness :
    lexLe (formatDateBuf ⟨1999, 12, 31, 23, 59, 59, 999999999⟩)
      (formatDateBuf ⟨2000, 1, 1, 0, 0, 0, 0⟩) ∧
    (∀ enc, formatDate ⟨1999, 12, 31, 23, 59, 59, 999999999⟩ enc =
      enc ++ [formatDateBuf ⟨1999, 12, 31, 23, 59, 59, 999999999⟩]) ∧
    (∀ u1 u2 : Time, u1.sameMicros u2 → formatDateBuf u1 = formatDateBuf u2) :=
  formatDate_monotonic ⟨1999, 12, 31, 23, 59, 59, 999999999⟩ ⟨2000, 1, 1, 0, 0, 0, 0⟩
    (by decide) (by decide) (by unfold Time.inRange; decide) (by unfold Time.inRange; decide)
    (Or.inl (by decide))

/-- Counterexample to C10 as stated: 9999-12-31T23:59:59.999999999Z is before
10000-01-01T00:00:00Z, yet its string `9999-12-31T23:59:59.999999Z` is
lexicographically greater than `0000-01-01T00:00:00.000000Z`, the string of the later
instant (the year is written modulo 10000). -/
theorem formatDate_not_monotonic_at_year_10000 :
    Time.inRange ⟨9999, 12, 31, 23, 59, 59, 999999999⟩ ∧
    Time.inRange ⟨10000, 1, 1, 0, 0, 0, 0⟩ ∧
    Time.notAfter ⟨9999, 12, 31, 23, 59, 59, 999999999⟩ ⟨10000, 1, 1, 0, 0, 0, 0⟩ ∧
    ¬ lexLe (formatDateBuf ⟨9999, 12, 31, 23, 59, 59, 999999999⟩)
      (formatDateBuf ⟨10000, 1, 1, 0, 0, 0, 0⟩) := by
  refine ⟨by unfold Time.inRange; decide, by unfold Time.inRange; decide,
    Or.inl (by decide), ?_⟩
  unfold lexLe
  decide

/-! ### The registry and the directive loops -/

theorem Scopes_store (r : Registry) (s n : String) (sc : Scope) :
    Scopes (r.store s sc) n = if n = s then some sc else Scopes r n := by
  unfold Scopes Registry.store
  by_cases hs : s = DefaultScopeName
  · subst hs
    by_cases hn : n = DefaultScopeName
    · simp [hn]
    · simp [hn]
  · by_cases hn : n = DefaultScopeName
    · subst hn
      have : ¬ DefaultScopeName = s := fun h => hs h.symm
      simp [hs, this]
    · simp [hs, hn]

theorem levelsLoop_output_eq_runItems (conv : String → Except String (String × Level))
    (items : List String) : ∀ r : Registry,
    levelsLoop conv Scope.SetOutputLevel items r =
      runItems conv (items.map (fun s => (Kind.output, s))) r := by
  induction items with
  | nil => intro r; rfl
  | cons sl rest ih =>
    intro r
    cases hc : conv sl with
    | error err => simp only [levelsLoop, List.map_cons, runItems, applyItem, hc]
    | ok p =>
      obtain ⟨s, l⟩ := p
      cases hs : Scopes r s with
      | none => simp only [levelsLoop, List.map_cons, runItems, applyItem, hc, hs]
      | some scope =>
        simp only [levelsLoop, List.map_cons, runItems, applyItem, hc, hs]
        exact ih _

theorem levelsLoop_stack_eq_runItems (conv : String → Except String (String × Level))
    (items : List String) : ∀ r : Registry,
    levelsLoop conv Scope.SetStackTraceLevel items r =
      runItems conv (items.map (fun s => (Kind.stack, s))) r := by
  induction items with
  | nil => intro r; rfl
  | cons sl rest ih =>
    intro r
    cases hc : conv sl with
    | error err => simp only [levelsLoop, List.map_cons, runItems, applyItem, hc]
    | ok p =>
      obtain ⟨s, l⟩ := p
      cases hs : Scopes r s with
      | none => simp only [levelsLoop, List.map_cons, runItems, applyItem, hc, hs]
      | some scope =>
        simp only [levelsLoop, List.map_cons, runItems, applyItem, hc, hs]
        exact ih _

theorem callersLoop_eq_runItems (conv : String → Except String (String × Level))
    (items : List String) : ∀ r : Registry,
    callersLoop items r = runItems conv (items.map (fun s => (Kind.callers, s))) r := by
  induction items with
  | nil => intro r; rfl
  | cons s rest ih =>
    intro r
    simp only [callersLoop, List.map_cons, runItems, applyItem]
    by_cases he : s = ""
    · simp only [he, if_true]
      exact ih _
    · cases hs : Scopes r s with
      | none => simp only [he, if_false, hs]
      | some scope =>
        simp only [he, if_false, hs]
        exact ih _

theorem runItems_append (conv : String → Except String (String × Level))
    (a b : List (Kind × String)) : ∀ r : Registry,
    runItems conv (a ++ b) r =
      match runItems conv a r with
      | (r1, none) => runItems conv b r1
      | (r1, some err) => (r1, some err) := by
  induction a with
  | nil => intro r; rfl
  | cons it rest ih =>
    intro r
    cases h : applyItem conv r it with
    | error err => simp only [List.cons_append, runItems, h]
    | ok r1 =>
      simp only [List.cons_append, runItems, h]
      exact ih r1

theorem updateScopes_eq_runItems (conv : String → Except String (String × Level))
    (options : Options) (core : Core) (errSink : WriteSyncer) (g : Globals) :
    updateScopes conv options core errSink g =
      ({ g with writeFn := some core, syncFn := some (.coreSync core),
                errorSink := some errSink,
                registry := (runItems conv (directiveItems options) g.registry).1 },
       (runItems conv (directiveItems options) g.registry).2) := by
  unfold updateScopes directiveItems
  simp only [levelsLoop_output_eq_runItems, levelsLoop_stack_eq_runItems,
    callersLoop_eq_runItems conv, runItems_append]
  rcases h1 : runItems conv
      (List.map (fun s => (Kind.output, s)) (strings.Split options.outputLevels ',')) g.registry
    with ⟨r1, _ | e1⟩
  · simp only
    rcases h2 : runItems conv
        (List.map (fun s => (Kind.stack, s)) (strings.Split options.stackTraceLevels ',')) r1
      with ⟨r2, _ | e2⟩
    · simp only
      rcases h3 : runItems conv
          (List.map (fun s => (Kind.callers, s)) (strings.Split options.logCallers ',')) r2
        with ⟨r3, _ | e3⟩ <;> rfl
    · rfl
  · rfl

theorem sameKeys_refl (r : Registry) : sameKeys r r := fun _ => rfl

theorem sameKeys_trans {r r1 r2 : Registry} (h1 : sameKeys r r1) (h2 : sameKeys r1 r2) :
    sameKeys r r2 := fun n => (h2 n).trans (h1 n)

theorem sameKeys_store (r : Registry) (s : String) (scope sc : Scope)
    (hs : Scopes r s = some scope) : sameKeys r (r.store s sc) := by
  intro n
  rw [Scopes_store]
  by_cases hn : n = s
  · subst hn
    simp [hs]
  · simp [hn]

theorem applyItem_keys (conv : String → Except String (String × Level)) (r r1 : Registry)
    (it : Kind × String) (h : applyItem conv r it = .ok r1) : sameKeys r r1 := by
  obtain ⟨k, sl⟩ := it
  cases k with
  | output =>
    simp only [applyItem] at h
    cases hc : conv sl with
    | error err => simp [hc] at h
    | ok p =>
      obtain ⟨s, l⟩ := p
      cases hs : Scopes r s with
      | none => simp [hc, hs] at h
      | some scope =>
        simp only [hc, hs, Except.ok.injEq] at h
        subst h
        exact sameKeys_store r s scope _ hs
  | stack =>
    simp only [applyItem] at h
    cases hc : conv sl with
    | error err => simp [hc] at h
    | ok p =>
      obtain ⟨s, l⟩ := p
      cases hs : Scopes r s with
      | none => simp [hc, hs] at h
      | some scope =>
        simp only [hc, hs, Except.ok.injEq] at h
        subst h
        exact sameKeys_store r s scope _ hs
  | callers =>
    simp only [applyItem] at h
    by_cases he : sl = ""
    · simp only [he, if_true, Except.ok.injEq] at h
      subst h
      exact sameKeys_refl r
    · cases hs : Scopes r sl with
      | none => simp [he, hs] at h
      | some scope =>
        simp only [he, if_false, hs, Except.ok.injEq] at h
        subst h
        exact sameKeys_store r sl scope _ hs

theorem applyItem_ok_of_itemOk (conv : String → Except String (String × Level))
    (r : Registry) (it : Kind × String) (h : itemOk conv r it) :
    ∃ r1, applyItem conv r it = .ok r1 := by
  obtain ⟨k, sl⟩ := it
  cases k with
  | output =>
    obtain ⟨s, l, hc, hs⟩ := h
    obtain ⟨scope, hscope⟩ := Option.isSome_iff_exists.mp hs
    exact ⟨r.store s (scope.SetOutputLevel l), by simp only [applyItem, hc, hscope]⟩
  | stack =>
    obtain ⟨s, l, hc, hs⟩ := h
    obtain ⟨scope, hscope⟩ := Option.isSome_iff_exists.mp hs
    exact ⟨r.store s (scope.SetStackTraceLevel l), by simp only [applyItem, hc, hscope]⟩
  | callers =>
    rcases h with he | hs
    · exact ⟨r, by simp only [applyItem, he, if_true]⟩
    · obtain ⟨scope, hscope⟩ := Option.isSome_iff_exists.mp hs
      by_cases he : sl = ""
      · exact ⟨r, by simp only [applyItem, he, if_true]⟩
      · exact ⟨r.store sl (scope.SetLogCallers true), by simp only [applyItem, he, if_false, hscope]⟩

theorem itemOk_of_sameKeys (conv : String → Except String (String × Level))
    {r r1 : Registry} (hk : sameKeys r r1) (it : Kind × String) (h : itemOk conv r it) :
    itemOk conv r1 it := by
  obtain ⟨k, sl⟩ := it
  cases k with
  | output =>
    obtain ⟨s, l, hc, hs⟩ := h
    exact ⟨s, l, hc, by rw [hk s]; exact hs⟩
  | stack =>
    obtain ⟨s, l, hc, hs⟩ := h
    exact ⟨s, l, hc, by rw [hk s]; exact hs⟩
  | callers =>
    rcases h with he | hs
    · exact Or.inl he
    · exact Or.inr (by rw [hk sl]; exact hs)

theorem Scopes_none_of_sameKeys {r r1 : Registry} (hk : sameKeys r r1) (s : String)
    (h : Scopes r s = none) : Scopes r1 s = none := by
  have := hk s
  rw [h] at this
  cases h1 : Scopes r1 s with
  | none => rfl
  | some sc => simp [h1] at this

theorem applyItem_unknown (conv : String → Except String (String × Level)) (r : Registry)
    (s : String) (it : Kind × String) (h : namesUnknown conv r s it) :
    applyItem conv r it = .error (unknownScope s) := by
  obtain ⟨k, sl⟩ := it
  cases k with
  | output =>
    obtain ⟨l, hc, hs⟩ := h
    simp only [applyItem, hc, hs]
  | stack =>
    obtain ⟨l, hc, hs⟩ := h
    simp only [applyItem, hc, hs]
  | callers =>
    obtain ⟨he, hx, hs⟩ := h
    subst hx
    simp only [applyItem, he, if_false, hs]

theorem namesUnknown_of_sameKeys (conv : String → Except String (String × Level))
    {r r1 : Registry} (hk : sameKeys r r1) (s : String) (it : Kind × String)
    (h : namesUnknown conv r s it) : namesUnknown conv r1 s it := by
  obtain ⟨k, sl⟩ := it
  cases k with
  | output =>
    obtain ⟨l, hc, hs⟩ := h
    exact ⟨l, hc, Scopes_none_of_sameKeys hk s hs⟩
  | stack =>
    obtain ⟨l, hc, hs⟩ := h
    exact ⟨l, hc, Scopes_none_of_sameKeys hk s hs⟩
  | callers =>
    obtain ⟨he, hx, hs⟩ := h
    exact ⟨he, hx, Scopes_none_of_sameKeys hk s hs⟩

theorem runItems_all_ok (conv : String → Except String (String × Level))
    (pre : List (Kind × String)) : ∀ r : Registry, (∀ p ∈ pre, itemOk conv r p) →
    ∃ r1, runItems conv pre r = (r1, none) ∧ sameKeys r r1 := by
  induction pre with
  | nil => intro r _; exact ⟨r, rfl, sameKeys_refl r⟩
  | cons it rest ih =>
    intro r h
    obtain ⟨r1, h1⟩ := applyItem_ok_of_itemOk conv r it (h it (List.mem_cons_self _ _))
    have hk := applyItem_keys conv r r1 it h1
    obtain ⟨r2, h2, hk2⟩ := ih r1 (fun p hp =>
      itemOk_of_sameKeys conv hk p (h p (List.mem_cons_of_mem _ hp)))
    exact ⟨r2, by simp only [runItems, h1, h2], sameKeys_trans hk hk2⟩

theorem runItems_first_failure (conv : String → Except String (String × Level))
    (pre suf : List (Kind × String)) (it : Kind × String) (r : Registry) (e : String)
    (hpre : ∀ p ∈ pre, itemOk conv r p)
    (hit : ∀ r1, sameKeys r r1 → applyItem conv r1 it = .error e) :
    (runItems conv (pre ++ it :: suf) r).2 = some e := by
  obtain ⟨r1, h1, hk⟩ := runItems_all_ok conv pre r hpre
  rw [runItems_append, h1]
  simp only [runItems, hit r1 hk]

theorem runItems_err_of_mem (conv : String → Except String (String × Level))
    (it : Kind × String) (its : List (Kind × String)) : ∀ r : Registry, it ∈ its →
    (∀ r1, sameKeys r r1 → ∃ e, applyItem conv r1 it = .error e) →
    ∃ e, (runItems conv its r).2 = some e := by
  induction its with
  | nil => intro r h; cases h
  | cons hd rest ih =>
    intro r hmem hfail
    cases h : applyItem conv r hd with
    | error err => exact ⟨err, by simp only [runItems, h]⟩
    | ok r1 =>
      have hk := applyItem_keys conv r r1 hd h
      rcases List.mem_cons.mp hmem with heq | hin
      · subst heq
        obtain ⟨e, he⟩ := hfail r (sameKeys_refl r)
        rw [h] at he
        cases he
      · obtain ⟨e, he⟩ := ih r1 hin (fun r2 hk2 => hfail r2 (sameKeys_trans hk hk2))
        exact ⟨e, by simp only [runItems, h, he]⟩

theorem runItems_failure_split (conv : String → Except String (String × Level))
    (its : List (Kind × String)) : ∀ (r r1 : Registry) (e : String),
    runItems conv its r = (r1, some e) →
    ∃ pre it suf, its = pre ++ it :: suf ∧ runItems conv pre r = (r1, none) ∧
      applyItem conv r1 it = .error e := by
  induction its with
  | nil => intro r r1 e h; simp [runItems] at h
  | cons hd rest ih =>
    intro r r1 e h
    cases ha : applyItem conv r hd with
    | error err =>
      simp only [runItems, ha, Prod.mk.injEq, Option.some.injEq] at h
      obtain ⟨hr, he⟩ := h
      subst hr
      subst he
      exact ⟨[], hd, rest, rfl, rfl, ha⟩
    | ok r2 =>
      simp only [runItems, ha] at h
      obtain ⟨pre, it, suf, hsplit, hrun, hfail⟩ := ih r2 r1 e h
      exact ⟨hd :: pre, it, suf, by rw [hsplit]; rfl, by simp only [runItems, ha, hrun], hfail⟩

theorem Configure_error_of_updateScopes (conv : String → Except String (String × Level))
    (zapOpen : List String → Except String WriteSyncer) (options : Options) (g : Globals)
    (core captureCore : Core) (errSink : WriteSyncer) (e : String)
    (hprep : prepZap zapOpen options = .ok core captureCore errSink)
    (hfail : (updateScopes conv options core errSink g).2 = some e) :
    Configure conv zapOpen options g = ((updateScopes conv options core errSink g).1, some e) := by
  unfold Configure
  rw [hprep]
  rcases hu : updateScopes conv options core errSink g with ⟨g1, _ | e1⟩
  · rw [hu] at hfail
    cases hfail
  · rw [hu] at hfail
    simp only [Option.some.injEq] at hfail
    subst hfail
    simp only [hu]

/-- C1 (as amended): if an item of `outputLevels` or `stackTraceLevels` parses to a scope
name `s` that is not a key of the `Scopes()` snapshot, or a non-empty item `s` of
`logCallers` is not a key, then `updateScopes` returns an error, and `Configure` returns
the same error when its sinks open. The error is that of the first failing item: when
every item before this one (in the order `outputLevels`, `stackTraceLevels`,
`logCallers`) is accepted, its text is exactly `unknown scope '<s>' specified`. -/
theorem updateScopes_unknown_scope (conv : String → Except String (String × Level))
    (zapOpen : List String → Except String WriteSyncer) (options : Options)
    (core captureCore : Core) (errSink : WriteSyncer) (g : Globals) (s : String)
    (it : Kind × String) (hmem : it ∈ directiveItems options)
    (hunk : namesUnknown conv g.registry s it) :
    (∃ e, (updateScopes conv options core errSink g).2 = some e ∧
      (prepZap zapOpen options = .ok core captureCore errSink →
        (Configure conv zapOpen options g).2 = some e)) ∧
    (∀ pre suf, directiveItems options = pre ++ it :: suf →
      (∀ p ∈ pre, itemOk conv g.registry p) →
      (updateScopes conv options core errSink g).2 = some (unknownScope s) ∧
      (prepZap zapOpen options = .ok core captureCore errSink →
        (Configure conv zapOpen options g).2 = some (unknownScope s))) ∧
    unknownScope s = "unknown scope '" ++ s ++ "' specified" := by
  have hfail : ∀ r1, sameKeys g.registry r1 →
      applyItem conv r1 it = .error (unknownScope s) := fun r1 hk =>
    applyItem_unknown conv r1 s it (namesUnknown_of_sameKeys conv hk s it hunk)
  refine ⟨?_, ?_, rfl⟩
  · obtain ⟨e, he⟩ := runItems_err_of_mem conv it (directiveItems options) g.registry hmem
      (fun r1 hk => ⟨_, hfail r1 hk⟩)
    have hu : (updateScopes conv options core errSink g).2 = some e := by
      rw [updateScopes_eq_runItems]
      exact he
    refine ⟨e, hu, fun hprep => ?_⟩
    rw [Configure_error_of_updateScopes conv zapOpen options g core captureCore errSink e
      hprep hu]
  · intro pre suf hsplit hpre
    have hu : (updateScopes conv options core errSink g).2 = some (unknownScope s) := by
      rw [updateScopes_eq_runItems, hsplit]
      exact runItems_first_failure conv pre suf it g.registry _ hpre hfail
    refine ⟨hu, fun hprep => ?_⟩
    rw [Configure_error_of_updateScopes conv zapOpen options g core captureCore errSink _
      hprep hu]

/-- Witness for C1 (scenario S3): with only `default` registered,
`outputLevels = "ghost:debug"` makes `Configure` fail with
`unknown scope 'ghost' specified`. -/
theorem updateScopes_unknown_scope_witness :
    (Configure convertScopedLevel openAll ghostOptions bootGlobals).2 =
      some "unknown scope 'ghost' specified" :=
  ((updateScopes_unknown_scope convertScopedLevel openAll ghostOptions stdoutCore
      stdoutCaptureCore (.opened ["stderr"]) bootGlobals "ghost" (Kind.output, "ghost:debug")
      (by decide) ⟨Level.DebugLevel, rfl, rfl⟩).2.1 []
    [(Kind.stack, "default:none"), (Kind.callers, "")] (by decide)
    (fun p hp => by cases hp)).2 rfl

/-- Counterexample to C1 as stated: with only `default` registered and
`logCallers = "ghost,phantom"`, the non-empty item `phantom` is not a key of the
snapshot, yet the error names `ghost`, the first unregistered scope, not `phantom`. -/
theorem updateScopes_reports_first_unknown_scope_only :
    (Kind.callers, "phantom") ∈ directiveItems twoGhostsOptions ∧
    namesUnknown convertScopedLevel bootGlobals.registry "phantom" (Kind.callers, "phantom") ∧
    (updateScopes convertScopedLevel twoGhostsOptions stdoutCore (.opened ["stderr"])
      bootGlobals).2 = some "unknown scope 'ghost' specified" ∧
    (Configure convertScopedLevel openAll twoGhostsOptions bootGlobals).2 =
      some "unknown scope 'ghost' specified" ∧
    "unknown scope 'ghost' specified" ≠ unknownScope "phantom" := by
  refine ⟨by decide, ⟨by decide, rfl, rfl⟩, by decide, by decide, by decide⟩

/-- C7: when the sinks open but a directive makes `updateScopes` fail with `e`,
`Configure` returns `e` and leaves the published state in place: `writeFn`, `syncFn` and
`errorSink` hold the new core's `Write`, the new core's `Sync` and the new error sink,
the capture loggers are untouched, and the registry is exactly the one reached by
applying, in the order `outputLevels`, `stackTraceLevels`, `logCallers`, every item that
precedes the failing one. -/
theorem Configure_failure_keeps_published_state
    (conv : String → Except String (String × Level))
    (zapOpen : List String → Except String WriteSyncer) (options : Options) (g : Globals)
    (core captureCore : Core) (errSink : WriteSyncer) (e : String)
    (hprep : prepZap zapOpen options = .ok core captureCore errSink)
    (hfail : (updateScopes conv options core errSink g).2 = some e) :
    ∃ g1, Configure conv zapOpen options g = (g1, some e) ∧
      g1.writeFn = some core ∧ g1.syncFn = some (.coreSync core) ∧
      g1.errorSink = some errSink ∧ g1.globalLogger = g.globalLogger ∧
      g1.stdLogLogger = g.stdLogLogger ∧ g1.grpcLogger = g.grpcLogger ∧
      ∃ pre it suf, directiveItems options = pre ++ it :: suf ∧
        runItems conv pre g.registry = (g1.registry, none) ∧
        applyItem conv g1.registry it = .error e := by
  refine ⟨(updateScopes conv options core errSink g).1,
    Configure_error_of_updateScopes conv zapOpen options g core captureCore errSink e hprep
      hfail, ?_⟩
  rw [updateScopes_eq_runItems] at hfail ⊢
  refine ⟨rfl, rfl, rfl, rfl, rfl, rfl, ?_⟩
  exact runItems_failure_split conv (directiveItems options) g.registry _ e
    (Prod.ext rfl hfail)

/-- Witness for C7: `outputLevels = "default:debug,ghost:debug"` fails at `ghost` after
the default scope's output level was set to `Debug`, and that setting stays. -/
theorem Configure_failure_keeps_published_state_witness :
    (∃ g1, Configure convertScopedLevel openAll partialOptions bootGlobals =
        (g1, some "unknown scope 'ghost' specified") ∧
      g1.writeFn = some stdoutCore ∧ g1.syncFn = some (.coreSync stdoutCore) ∧
      g1.errorSink = some (.opened ["stderr"]) ∧ g1.globalLogger = bootGlobals.globalLogger ∧
      g1.stdLogLogger = bootGlobals.stdLogLogger ∧ g1.grpcLogger = bootGlobals.grpcLogger ∧
      ∃ pre it suf, directiveItems partialOptions = pre ++ it :: suf ∧
        runItems convertScopedLevel pre bootGlobals.registry = (g1.registry, none) ∧
        applyItem convertScopedLevel g1.registry it =
          .error "unknown scope 'ghost' specified") ∧
    (Configure convertScopedLevel openAll partialOptions bootGlobals).1.registry.defaultScope.outputLevel
      = Level.DebugLevel ∧
    bootGlobals.registry.defaultScope.outputLevel = Level.InfoLevel :=
  ⟨Configure_failure_keeps_published_state convertScopedLevel openAll partialOptions
    bootGlobals stdoutCore stdoutCaptureCore (.opened ["stderr"])
    "unknown scope 'ghost' specified" rfl (by decide), by decide, by decide⟩

/-! ### Last directive wins -/

theorem levelsLoop_all_ok (conv : String → Except String (String × Level))
    (set : Scope → Level → Scope) (items : List String) : ∀ r : Registry,
    (∀ sl ∈ items, ∃ s l, conv sl = .ok (s, l) ∧ (Scopes r s).isSome) →
    ∃ r1, levelsLoop conv set items r = (r1, none) ∧
      ∀ n, Scopes r1 n = (Scopes r n).map (applyNamed conv set items n) := by
  induction items with
  | nil =>
    intro r _
    exact ⟨r, rfl, fun n => by simp [applyNamed]⟩
  | cons sl rest ih =>
    intro r h
    obtain ⟨s, l, hc, hs⟩ := h sl (List.mem_cons_self _ _)
    obtain ⟨scope, hscope⟩ := Option.isSome_iff_exists.mp hs
    have hk := sameKeys_store r s scope (set scope l) hscope
    obtain ⟨r1, h1, hn⟩ := ih (r.store s (set scope l)) (fun sl1 hsl1 => by
      obtain ⟨s1, l1, hc1, hs1⟩ := h sl1 (List.mem_cons_of_mem _ hsl1)
      exact ⟨s1, l1, hc1, by rw [hk s1]; exact hs1⟩)
    refine ⟨r1, by simp only [levelsLoop, hc, hscope, h1], fun n => ?_⟩
    rw [hn n, Scopes_store]
    by_cases hns : n = s
    · subst hns
      simp [hscope, applyNamed, hc]
    · have hsn : ¬ s = n := fun h => hns h.symm
      cases hsc : Scopes r n with
      | none => simp [hns]
      | some sc => simp [hns, applyNamed, hc, hsn]

theorem levelsLoop_frame {α : Type} (conv : String → Except String (String × Level))
    (set : Scope → Level → Scope) (P : Scope → α) (hP : ∀ sc l, P (set sc l) = P sc)
    (items : List String) : ∀ (r : Registry) (n : String),
    (Scopes (levelsLoop conv set items r).1 n).map P = (Scopes r n).map P := by
  induction items with
  | nil => intro r n; rfl
  | cons sl rest ih =>
    intro r n
    cases hc : conv sl with
    | error err => simp only [levelsLoop, hc]
    | ok p =>
      obtain ⟨s, l⟩ := p
      cases hs : Scopes r s with
      | none => simp only [levelsLoop, hc, hs]
      | some scope =>
        simp only [levelsLoop, hc, hs]
        rw [ih, Scopes_store]
        by_cases hns : n = s
        · subst hns
          simp [hs, hP]
        · simp [hns]

theorem callersLoop_frame {α : Type} (P : Scope → α)
    (hP : ∀ sc, P (sc.SetLogCallers true) = P sc) (items : List String) :
    ∀ (r : Registry) (n : String),
    (Scopes (callersLoop items r).1 n).map P = (Scopes r n).map P := by
  induction items with
  | nil => intro r n; rfl
  | cons s rest ih =>
    intro r n
    by_cases he : s = ""
    · simp only [callersLoop, he, if_true]
      exact ih r n
    · cases hs : Scopes r s with
      | none => simp only [callersLoop, he, if_false, hs]
      | some scope =>
        simp only [callersLoop, he, if_false, hs]
        rw [ih, Scopes_store]
        by_cases hns : n = s
        · subst hns
          simp [hs, hP]
        · simp [hns]

theorem applyNamed_output (conv : String → Except String (String × Level))
    (items : List String) (n : String) : ∀ sc : Scope,
    (applyNamed conv Scope.SetOutputLevel items n sc).GetOutputLevel =
      (lastLevel conv items n).getD sc.GetOutputLevel := by
  induction items with
  | nil => intro sc; rfl
  | cons sl rest ih =>
    intro sc
    cases hc : conv sl with
    | error err =>
      simp only [applyNamed, lastLevel, hc, ih]
      cases lastLevel conv rest n <;> rfl
    | ok p =>
      obtain ⟨s, l⟩ := p
      by_cases hsn : s = n
      · simp only [applyNamed, lastLevel, hc, hsn, if_true, ih]
        cases lastLevel conv rest n <;> rfl
      · simp only [applyNamed, lastLevel, hc, hsn, if_false, ih]
        cases lastLevel conv rest n <;> rfl

theorem applyNamed_stack (conv : String → Except String (String × Level))
    (items : List String) (n : String) : ∀ sc : Scope,
    (applyNamed conv Scope.SetStackTraceLevel items n sc).GetStackTraceLevel =
      (lastLevel conv items n).getD sc.GetStackTraceLevel := by
  induction items with
  | nil => intro sc; rfl
  | cons sl rest ih =>
    intro sc
    cases hc : conv sl with
    | error err =>
      simp only [applyNamed, lastLevel, hc, ih]
      cases lastLevel conv rest n <;> rfl
    | ok p =>
      obtain ⟨s, l⟩ := p
      by_cases hsn : s = n
      · simp only [applyNamed, lastLevel, hc, hsn, if_true, ih]
        cases lastLevel conv rest n <;> rfl
      · simp only [applyNamed, lastLevel, hc, hsn, if_false, ih]
        cases lastLevel conv rest n <;> rfl

theorem applyNamed_output_frame (conv : String → Except String (String × Level))
    (items : List String) (n : String) : ∀ sc : Scope,
    (applyNamed conv Scope.SetOutputLevel items n sc).GetStackTraceLevel =
      sc.GetStackTraceLevel := by
  induction items with
  | nil => intro sc; rfl
  | cons sl rest ih =>
    intro sc
    cases hc : conv sl with
    | error err => simp only [applyNamed, hc, ih]
    | ok p =>
      obtain ⟨s, l⟩ := p
      by_cases hsn : s = n
      · simp only [applyNamed, hc, hsn, if_true, ih]
        rfl
      · simp only [applyNamed, hc, hsn, if_false, ih]

/-- The registry `updateScopes` leaves, loop by loop. -/
theorem updateScopes_registry (conv : String → Except String (String × Level))
    (options : Options) (core : Core) (errSink : WriteSyncer) (g : Globals) :
    (updateScopes conv options core errSink g).1.registry =
      match levelsLoop conv Scope.SetOutputLevel (strings.Split options.outputLevels ',')
          g.registry with
      | (r1, some _) => r1
      | (r1, none) =>
        match levelsLoop conv Scope.SetStackTraceLevel
            (strings.Split options.stackTraceLevels ',') r1 with
        | (r2, some _) => r2
        | (r2, none) => (callersLoop (strings.Split options.logCallers ',') r2).1 := by
  simp only [updateScopes]
  rcases h1 : levelsLoop conv Scope.SetOutputLevel (strings.Split options.outputLevels ',')
      g.registry with ⟨r1, _ | e1⟩
  · simp only
    rcases h2 : levelsLoop conv Scope.SetStackTraceLevel
        (strings.Split options.stackTraceLevels ',') r1 with ⟨r2, _ | e2⟩
    · simp only
      rcases h3 : callersLoop (strings.Split options.logCallers ',') r2 with ⟨r3, _ | e3⟩ <;> rfl
    · rfl
  · rfl

/-- C2 (as amended): when every item of `outputLevels` parses and names a registered
scope, `updateScopes` leaves each registered scope with the output level of the last
directive naming it, and with the output level it had when no directive names it; and
when, in addition, every item of `stackTraceLevels` parses and names a registered scope,
the same holds for the stack-trace levels. The `stackTraceLevels` directives are applied
only after every `outputLevels` item was accepted. -/
theorem updateScopes_last_directive_wins (conv : String → Except String (String × Level))
    (options : Options) (core : Core) (errSink : WriteSyncer) (g : Globals)
    (hout : ∀ sl ∈ strings.Split options.outputLevels ',',
      ∃ s l, conv sl = .ok (s, l) ∧ (Scopes g.registry s).isSome) :
    (∀ n sc, Scopes g.registry n = some sc →
      ∃ sc1, Scopes (updateScopes conv options core errSink g).1.registry n = some sc1 ∧
        sc1.GetOutputLevel =
          (lastLevel conv (strings.Split options.outputLevels ',') n).getD sc.GetOutputLevel) ∧
    ((∀ sl ∈ strings.Split options.stackTraceLevels ',',
        ∃ s l, conv sl = .ok (s, l) ∧ (Scopes g.registry s).isSome) →
      ∀ n sc, Scopes g.registry n = some sc →
      ∃ sc1, Scopes (updateScopes conv options core errSink g).1.registry n = some sc1 ∧
        sc1.GetStackTraceLevel =
          (lastLevel conv (strings.Split options.stackTraceLevels ',') n).getD
            sc.GetStackTraceLevel) := by
  obtain ⟨r1, h1, hn1⟩ := levelsLoop_all_ok conv Scope.SetOutputLevel _ g.registry hout
  have hreg := updateScopes_registry conv options core errSink g
  rw [h1] at hreg
  simp only at hreg
  have hfinalOut : ∀ n, (Scopes (updateScopes conv options core errSink g).1.registry n).map
      Scope.GetOutputLevel = (Scopes r1 n).map Scope.GetOutputLevel := by
    intro n
    rw [hreg]
    rcases h2 : levelsLoop conv Scope.SetStackTraceLevel
        (strings.Split options.stackTraceLevels ',') r1 with ⟨r2, _ | e2⟩
    · simp only
      rw [callersLoop_frame Scope.GetOutputLevel (fun _ => rfl)]
      have := levelsLoop_frame conv Scope.SetStackTraceLevel Scope.GetOutputLevel
        (fun _ _ => rfl) (strings.Split options.stackTraceLevels ',') r1 n
      rw [h2] at this
      exact this
    · simp only
      have := levelsLoop_frame conv Scope.SetStackTraceLevel Scope.GetOutputLevel
        (fun _ _ => rfl) (strings.Split options.stackTraceLevels ',') r1 n
      rw [h2] at this
      exact this
  refine ⟨?_, ?_⟩
  · intro n sc hsc
    have h := hfinalOut n
    rw [hn1 n, hsc] at h
    cases hf : Scopes (updateScopes conv options core errSink g).1.registry n with
    | none => simp [hf] at h
    | some sc1 =>
      refine ⟨sc1, rfl, ?_⟩
      rw [hf] at h
      simp only [Option.map_some', Option.some.injEq] at h
      rw [h, applyNamed_output]
  · intro hstack n sc hsc
    have hk1 : ∀ m, (Scopes r1 m).isSome = (Scopes g.registry m).isSome := by
      intro m
      rw [hn1 m]
      cases Scopes g.registry m <;> rfl
    obtain ⟨r2, h2, hn2⟩ := levelsLoop_all_ok conv Scope.SetStackTraceLevel _ r1
      (fun sl hsl => by
        obtain ⟨s, l, hc, hs⟩ := hstack sl hsl
        exact ⟨s, l, hc, by rw [hk1 s]; exact hs⟩)
    rw [h2] at hreg
    simp only at hreg
    have h := callersLoop_frame Scope.GetStackTraceLevel (fun _ => rfl)
      (strings.Split options.logCallers ',') r2 n
    rw [← hreg, hn2 n, hn1 n, hsc] at h
    cases hf : Scopes (updateScopes conv options core errSink g).1.registry n with
    | none => simp [hf] at h
    | some sc1 =>
      refine ⟨sc1, rfl, ?_⟩
      rw [hf] at h
      simp only [Option.map_some', Option.some.injEq] at h
      rw [h, applyNamed_stack, applyNamed_output_frame]

theorem lastWinsOptions_output_ok : ∀ sl ∈ strings.Split lastWinsOptions.outputLevels ',',
    ∃ s l, convertScopedLevel sl = .ok (s, l) ∧ (Scopes bootGlobals.registry s).isSome := by
  have hsplit : strings.Split lastWinsOptions.outputLevels ',' =
      ["default:debug", "warn", "default:error"] := by decide
  intro sl hsl
  rw [hsplit] at hsl
  simp only [List.mem_cons, List.mem_singleton, List.not_mem_nil, or_false] at hsl
  rcases hsl with rfl | rfl | rfl
  · exact ⟨"default", .DebugLevel, rfl, rfl⟩
  · exact ⟨"default", .WarnLevel, rfl, rfl⟩
  · exact ⟨"default", .ErrorLevel, rfl, rfl⟩

theorem lastWinsOptions_stack_ok : ∀ sl ∈ strings.Split lastWinsOptions.stackTraceLevels ',',
    ∃ s l, convertScopedLevel sl = .ok (s, l) ∧ (Scopes bootGlobals.registry s).isSome := by
  have hsplit : strings.Split lastWinsOptions.stackTraceLevels ',' =
      ["error", "default:warn"] := by decide
  intro sl hsl
  rw [hsplit] at hsl
  simp only [List.mem_cons, List.mem_singleton, List.not_mem_nil, or_false] at hsl
  rcases hsl with rfl | rfl
  · exact ⟨"default", .ErrorLevel, rfl, rfl⟩
  · exact ⟨"default", .WarnLevel, rfl, rfl⟩

/-- Witness for C2: `outputLevels = "default:debug,warn,default:error"` leaves the default
scope at `Error`, and `stackTraceLevels = "error,default:warn"` leaves its stack-trace
level at `Warn`. -/
theorem updateScopes_last_directive_wins_witness :
    (∃ sc1, Scopes (updateScopes convertScopedLevel lastWinsOptions stdoutCore
        (.opened ["stderr"]) bootGlobals).1.registry "default" = some sc1 ∧
      sc1.GetOutputLevel = Level.ErrorLevel) ∧
    (∃ sc1, Scopes (updateScopes convertScopedLevel lastWinsOptions stdoutCore
        (.opened ["stderr"]) bootGlobals).1.registry "default" = some sc1 ∧
      sc1.GetStackTraceLevel = Level.WarnLevel) :=
  have hw := updateScopes_last_directive_wins convertScopedLevel lastWinsOptions stdoutCore
    (.opened ["stderr"]) bootGlobals lastWinsOptions_output_ok
  ⟨hw.1 "default" bootRegistry.defaultScope rfl,
   hw.2 lastWinsOptions_stack_ok "default" bootRegistry.defaultScope rfl⟩

/-- Counterexample to C2 as stated: with `outputLevels = "ghost:debug"` and
`stackTraceLevels = "default:error"`, the one item of `stackTraceLevels` parses and names
the registered scope `default`, and the last directive naming `default` has level
`Error`; yet `updateScopes` returns at the unknown scope `ghost` before the stack-trace
loop, and the stack-trace level of `default` is still `None`. -/
theorem updateScopes_stack_directives_not_reached :
    strings.Split stackAfterGhostOptions.stackTraceLevels ',' = ["default:error"] ∧
    convertScopedLevel "default:error" = .ok ("default", Level.ErrorLevel) ∧
    (Scopes bootGlobals.registry "default").isSome = true ∧
    lastLevel convertScopedLevel (strings.Split stackAfterGhostOptions.stackTraceLevels ',')
      "default" = some Level.ErrorLevel ∧
    (updateScopes convertScopedLevel stackAfterGhostOptions stdoutCore (.opened ["stderr"])
      bootGlobals).2 = some "unknown scope 'ghost' specified" ∧
    Scopes (updateScopes convertScopedLevel stackAfterGhostOptions stdoutCore
      (.opened ["stderr"]) bootGlobals).1.registry "default" =
      some { outputLevel := .InfoLevel, stackTraceLevel := .NoneLevel, logCallers := false } := by
  refine ⟨by decide, rfl, rfl, by decide, by decide, by decide⟩

/-! ### Empty items -/

theorem callersLoop_nonEmptyItems (items : List String) : ∀ r : Registry,
    callersLoop items r = callersLoop (nonEmptyItems items) r := by
  induction items with
  | nil => intro r; rfl
  | cons s rest ih =>
    intro r
    by_cases he : s = ""
    · have hf : nonEmptyItems (s :: rest) = nonEmptyItems rest := by
        simp [nonEmptyItems, he]
      rw [hf]
      simp only [callersLoop, he, if_true]
      exact ih r
    · have hf : nonEmptyItems (s :: rest) = s :: nonEmptyItems rest := by
        simp [nonEmptyItems, he]
      rw [hf]
      cases hs : Scopes r s with
      | none => simp only [callersLoop, he, if_false, hs]
      | some scope =>
        simp only [callersLoop, he, if_false, hs]
        exact ih _

theorem mem_directiveItems_output (options : Options) (sl : String)
    (h : sl ∈ strings.Split options.outputLevels ',') :
    (Kind.output, sl) ∈ directiveItems options := by
  unfold directiveItems
  exact List.mem_append_left _ (List.mem_map.mpr ⟨sl, h, rfl⟩)

theorem mem_directiveItems_stack (options : Options) (sl : String)
    (h : sl ∈ strings.Split options.stackTraceLevels ',') :
    (Kind.stack, sl) ∈ directiveItems options := by
  unfold directiveItems
  exact List.mem_append_right _ (List.mem_append_left _ (List.mem_map.mpr ⟨sl, h, rfl⟩))

/-- Whatever `convertScopedLevel` does with the empty item, the output-level loop does
not skip it: for some registry the item raises an error or changes a scope. -/
theorem empty_level_item_never_skipped (conv : String → Except String (String × Level)) :
    ∃ r : Registry, (levelsLoop conv Scope.SetOutputLevel [""] r).2 ≠ none ∨
      Scopes (levelsLoop conv Scope.SetOutputLevel [""] r).1 DefaultScopeName ≠
        Scopes r DefaultScopeName := by
  cases hc : conv "" with
  | error err => exact ⟨bootRegistry, Or.inl (by simp [levelsLoop, hc])⟩
  | ok p =>
    obtain ⟨s, l⟩ := p
    by_cases hl : l = Level.DebugLevel
    · refine ⟨registryAt .InfoLevel, ?_⟩
      cases hs : Scopes (registryAt .InfoLevel) s with
      | none => exact Or.inl (by simp [levelsLoop, hc, hs])
      | some scope =>
        have hsd : s = DefaultScopeName := by
          by_contra hne
          simp [Scopes, registryAt, hne] at hs
        subst hsd
        refine Or.inr ?_
        simp only [levelsLoop, hc, hs, Scopes_store, if_true]
        simp [Scopes, registryAt] at hs ⊢
        subst hs
        simp [Scope.SetOutputLevel, hl]
    · refine ⟨registryAt .DebugLevel, ?_⟩
      cases hs : Scopes (registryAt .DebugLevel) s with
      | none => exact Or.inl (by simp [levelsLoop, hc, hs])
      | some scope =>
        have hsd : s = DefaultScopeName := by
          by_contra hne
          simp [Scopes, registryAt, hne] at hs
        subst hsd
        refine Or.inr ?_
        simp only [levelsLoop, hc, hs, Scopes_store, if_true]
        simp [Scopes, registryAt] at hs ⊢
        subst hs
        simp [Scope.SetOutputLevel]
        exact hl

/-- C8 (as amended): `updateScopes` skips the empty items of `logCallers`: an empty item
changes no scope and raises no error, so two option values that agree on `outputLevels`
and `stackTraceLevels` and whose `logCallers` have the same non-empty items give the same
result. The empty items of `outputLevels` and `stackTraceLevels` are not skipped: each
is handed to `convertScopedLevel`, and when that rejects the empty item `updateScopes`
returns an error. -/
theorem updateScopes_skips_empty_logCallers (conv : String → Except String (String × Level))
    (o1 o2 : Options) (core : Core) (errSink : WriteSyncer) (g : Globals)
    (h1 : o1.outputLevels = o2.outputLevels) (h2 : o1.stackTraceLevels = o2.stackTraceLevels)
    (h3 : nonEmptyItems (strings.Split o1.logCallers ',') =
      nonEmptyItems (strings.Split o2.logCallers ',')) :
    updateScopes conv o1 core errSink g = updateScopes conv o2 core errSink g ∧
    (∀ rest r, callersLoop ("" :: rest) r = callersLoop rest r) ∧
    (∀ e, conv "" = .error e →
      ("" ∈ strings.Split o1.outputLevels ',' ∨ "" ∈ strings.Split o1.stackTraceLevels ',') →
      ∃ e1, (updateScopes conv o1 core errSink g).2 = some e1) := by
  refine ⟨?_, fun rest r => by simp only [callersLoop, if_true], ?_⟩
  · simp only [updateScopes, h1, h2]
    have hc : ∀ r, callersLoop (strings.Split o1.logCallers ',') r =
        callersLoop (strings.Split o2.logCallers ',') r := fun r => by
      rw [callersLoop_nonEmptyItems, h3, ← callersLoop_nonEmptyItems]
    simp only [hc]
  · intro e he hmem
    rw [updateScopes_eq_runItems]
    rcases hmem with hm | hm
    · exact runItems_err_of_mem conv (Kind.output, "") _ g.registry
        (mem_directiveItems_output o1 "" hm)
        (fun r1 _ => ⟨e, by simp only [applyItem, he]⟩)
    · exact runItems_err_of_mem conv (Kind.stack, "") _ g.registry
        (mem_directiveItems_stack o1 "" hm)
        (fun r1 _ => ⟨e, by simp only [applyItem, he]⟩)

/-- Witness for C8: `logCallers = ",default,,"` gives the same result as
`logCallers = "default"`. -/
theorem updateScopes_skips_empty_logCallers_witness :
    updateScopes convertScopedLevel paddedCallersOptions stdoutCore (.opened ["stderr"])
        bootGlobals =
      updateScopes convertScopedLevel plainCallersOptions stdoutCore (.opened ["stderr"])
        bootGlobals ∧
    (updateScopes convertScopedLevel paddedCallersOptions stdoutCore (.opened ["stderr"])
        bootGlobals).2 = none ∧
    (updateScopes convertScopedLevel paddedCallersOptions stdoutCore (.opened ["stderr"])
        bootGlobals).1.registry.defaultScope.logCallers = true :=
  ⟨(updateScopes_skips_empty_logCallers convertScopedLevel paddedCallersOptions
      plainCallersOptions stdoutCore (.opened ["stderr"]) bootGlobals rfl rfl (by decide)).1,
    by decide, by decide⟩

/-- Counterexample to C8 as stated: with `outputLevels`, `stackTraceLevels` and
`logCallers` all empty, `updateScopes` does not succeed: the single empty item of
`outputLevels` is handed to `convertScopedLevel`, which rejects it. -/
theorem updateScopes_empty_outputLevels_fails :
    strings.Split emptyDirectivesOptions.outputLevels ',' = [""] ∧
    (updateScopes convertScopedLevel emptyDirectivesOptions stdoutCore (.opened ["stderr"])
      bootGlobals).2 = some "invalid output level ''" ∧
    (updateScopes convertScopedLevel emptyDirectivesOptions stdoutCore (.opened ["stderr"])
      bootGlobals).2 ≠ none := by
  refine ⟨by decide, by decide, by decide⟩

/-! ### `prepZap`: sinks, rotation limits and the capture gate -/

theorem prepZap_ok_shape (zapOpen : List String → Except String WriteSyncer)
    (options : Options) (core captureCore : Core) (errSink : WriteSyncer)
    (h : prepZap zapOpen options = .ok core captureCore errSink) :
    captureCore.enab = .enablerFunc ∧ core.enab = .atomicLevelAt zapcore.DebugLevel ∧
    core.out = captureCore.out ∧ core.enc = captureCore.enc := by
  unfold prepZap at h
  cases he : zapOpen options.ErrorOutputPaths with
  | error err => simp [he] at h
  | ok es =>
    simp only [he] at h
    by_cases hlen : options.OutputPaths.length > 0
    · cases ho : zapOpen options.OutputPaths with
      | error err => simp [hlen, ho] at h
      | ok o =>
        simp only [hlen, if_true, ho, PrepResult.ok.injEq] at h
        obtain ⟨h1, h2, _⟩ := h
        subst h1
        subst h2
        exact ⟨rfl, rfl, rfl, rfl⟩
    · simp only [hlen, if_false, PrepResult.ok.injEq] at h
      obtain ⟨h1, h2, _⟩ := h
      subst h1
      subst h2
      exact ⟨rfl, rfl, rfl, rfl⟩

/-- The sink composition of `prepZap` (config.go 80-87) when the sinks open: the write
sink of both cores is a multi-sink over (opened `OutputPaths`, rotating sink) in that order
when both are given, the rotating sink alone when only `RotateOutputPath` is given, the
opened `OutputPaths` sink alone when only `OutputPaths` is given, and the nil
`WriteSyncer` when neither is given. -/
theorem prepZap_sink (zapOpen : List String → Except String WriteSyncer) (options : Options)
    (errSink : WriteSyncer) (herr : zapOpen options.ErrorOutputPaths = .ok errSink) :
    (∀ o r, options.OutputPaths ≠ [] → zapOpen options.OutputPaths = .ok o →
      rotaterSink options = some r → sinkIs zapOpen options errSink (some (.multi o r))) ∧
    (∀ r, options.OutputPaths = [] → rotaterSink options = some r →
      sinkIs zapOpen options errSink (some r)) ∧
    (∀ o, options.OutputPaths ≠ [] → zapOpen options.OutputPaths = .ok o →
      options.RotateOutputPath = "" → sinkIs zapOpen options errSink (some o)) ∧
    (options.OutputPaths = [] → options.RotateOutputPath = "" →
      sinkIs zapOpen options errSink none) ∧
    (options.RotateOutputPath ≠ "" → ∃ l, rotaterSink options = some (.rotater l) ∧
      l.Filename = options.RotateOutputPath) := by
  refine ⟨?_, ?_, ?_, ?_, ?_⟩
  · intro o r hp ho hr
    have hlen : options.OutputPaths.length > 0 := List.length_pos.mpr hp
    exact ⟨⟨if options.JSONEncoding then .json else .console, some (.multi o r), .atomicLevelAt zapcore.DebugLevel⟩,
      ⟨if options.JSONEncoding then .json else .console, some (.multi o r), .enablerFunc⟩,
      by simp only [prepZap, herr, hlen, if_true, ho, hr], rfl, rfl⟩
  · intro r hp hr
    have hlen : ¬ options.OutputPaths.length > 0 := by simp [hp]
    exact ⟨⟨if options.JSONEncoding then .json else .console, some r, .atomicLevelAt zapcore.DebugLevel⟩,
      ⟨if options.JSONEncoding then .json else .console, some r, .enablerFunc⟩,
      by simp only [prepZap, herr, hlen, if_false, hr], rfl, rfl⟩
  · intro o hp ho hr
    have hlen : options.OutputPaths.length > 0 := List.length_pos.mpr hp
    have hrot : rotaterSink options = none := by simp [rotaterSink, hr]
    exact ⟨⟨if options.JSONEncoding then .json else .console, some o, .atomicLevelAt zapcore.DebugLevel⟩,
      ⟨if options.JSONEncoding then .json else .console, some o, .enablerFunc⟩,
      by simp only [prepZap, herr, hlen, if_true, ho, hrot], rfl, rfl⟩
  · intro hp hr
    have hlen : ¬ options.OutputPaths.length > 0 := by simp [hp]
    have hrot : rotaterSink options = none := by simp [rotaterSink, hr]
    exact ⟨⟨if options.JSONEncoding then .json else .console, none, .atomicLevelAt zapcore.DebugLevel⟩,
      ⟨if options.JSONEncoding then .json else .console, none, .enablerFunc⟩,
      by simp only [prepZap, herr, hlen, if_false, hrot], rfl, rfl⟩
  · intro hr
    exact ⟨{ Filename := options.RotateOutputPath, MaxSize := options.RotationMaxSize,
             MaxBackups := options.RotationMaxAge, MaxAge := options.RotationMaxBackups,
             LocalTime := true },
      by simp only [rotaterSink, hr, ne_eq, not_false_eq_true, if_true], rfl⟩

/-- Scenario S6: stdout plus a rotating file gives the multi-sink over the opened stdout
sink and the rotating sink, in that order. -/
theorem prepZap_sink_stdout_and_rotation :
    sinkIs openAll rotateOptions (.opened ["stderr"])
      (some (.multi (.opened ["stdout"])
        (.rotater { Filename := "/tmp/t.log", MaxSize := 1, MaxBackups := 7, MaxAge := 3,
                    LocalTime := true }))) :=
  (prepZap_sink openAll rotateOptions (.opened ["stderr"]) rfl).1 _ _ (by decide) rfl rfl

/-- C4 (code evaluated at the failing input): with no output path and no rotation path
`prepZap` succeeds and both cores hold the nil `WriteSyncer`, which is not a discard
sink; `Configure` returns no error and publishes that core in `writeFn` and `syncFn`. -/
theorem prepZap_no_paths_gives_nil_sink :
    noSinkOptions.OutputPaths = [] ∧ noSinkOptions.RotateOutputPath = "" ∧
    prepZap openAll noSinkOptions =
      .ok { enc := .console, out := none, enab := .atomicLevelAt zapcore.DebugLevel }
        { enc := .console, out := none, enab := .enablerFunc } (.opened ["stderr"]) ∧
    ¬ sinkIs openAll noSinkOptions (.opened ["stderr"]) (some .discard) ∧
    (Configure convertScopedLevel openAll noSinkOptions bootGlobals).2 = none ∧
    (Configure convertScopedLevel openAll noSinkOptions bootGlobals).1.writeFn =
      some { enc := .console, out := none, enab := .atomicLevelAt zapcore.DebugLevel } ∧
    (Configure convertScopedLevel openAll noSinkOptions bootGlobals).1.syncFn =
      some (.coreSync
        { enc := .console, out := none, enab := .atomicLevelAt zapcore.DebugLevel }) := by
  refine ⟨rfl, rfl, by decide, ?_, by decide, by decide, by decide⟩
  rintro ⟨core, captureCore, hprep, hout, _⟩
  have h : prepZap openAll noSinkOptions =
      .ok { enc := .console, out := none, enab := .atomicLevelAt zapcore.DebugLevel }
        { enc := .console, out := none, enab := .enablerFunc } (.opened ["stderr"]) := by
    decide
  rw [h] at hprep
  simp only [PrepResult.ok.injEq] at hprep
  obtain ⟨h1, _, _⟩ := hprep
  subst h1
  simp at hout

/-- C5 (code evaluated at the failing input): with `RotationMaxAge = 7` and
`RotationMaxBackups = 3` the rotating sink `prepZap` builds has `MaxBackups = 7` and
`MaxAge = 3`: the two limits are swapped, while `MaxSize` is `RotationMaxSize`. -/
theorem prepZap_rotation_limits_swapped :
    rotateOptions.RotationMaxSize = 1 ∧ rotateOptions.RotationMaxAge = 7 ∧
    rotateOptions.RotationMaxBackups = 3 ∧
    rotaterSink rotateOptions =
      some (.rotater { Filename := "/tmp/t.log", MaxSize := 1, MaxBackups := 7, MaxAge := 3,
                       LocalTime := true }) ∧
    sinkIs openAll rotateOnlyOptions (.opened ["stderr"])
      (some (.rotater { Filename := "/tmp/t.log", MaxSize := 1, MaxBackups := 7, MaxAge := 3,
                        LocalTime := true })) := by
  refine ⟨rfl, rfl, rfl, by decide, ⟨_, _, rfl, ?_, ?_⟩⟩ <;> decide

/-- C6: the level gate of the capture core `prepZap` builds delegates to the default
scope: at zap level Error it is `ErrorEnabled()`, at Warn `WarnEnabled()`, at Info
`InfoEnabled()`, at Debug `DebugEnabled()`, and at every other zap level (DPanic, Panic,
Fatal among them) it is `DebugEnabled()` too; so with the default scope's output level
at Info the gate is closed for Panic and Fatal and open for Error. -/
theorem captureCore_gate_delegates (zapOpen : List String → Except String WriteSyncer)
    (options : Options) (core captureCore : Core) (errSink : WriteSyncer)
    (hprep : prepZap zapOpen options = .ok core captureCore errSink) (defaultScope : Scope) :
    captureCore.enab.Enabled defaultScope zapcore.ErrorLevel = defaultScope.ErrorEnabled ∧
    captureCore.enab.Enabled defaultScope zapcore.WarnLevel = defaultScope.WarnEnabled ∧
    captureCore.enab.Enabled defaultScope zapcore.InfoLevel = defaultScope.InfoEnabled ∧
    captureCore.enab.Enabled defaultScope zapcore.DebugLevel = defaultScope.DebugEnabled ∧
    captureCore.enab.Enabled defaultScope zapcore.DPanicLevel = defaultScope.DebugEnabled ∧
    captureCore.enab.Enabled defaultScope zapcore.PanicLevel = defaultScope.DebugEnabled ∧
    captureCore.enab.Enabled defaultScope zapcore.FatalLevel = defaultScope.DebugEnabled ∧
    (∀ lvl : Int, lvl ≠ zapcore.ErrorLevel → lvl ≠ zapcore.WarnLevel →
      lvl ≠ zapcore.InfoLevel →
      captureCore.enab.Enabled defaultScope lvl = defaultScope.DebugEnabled) ∧
    (defaultScope.GetOutputLevel = Level.InfoLevel →
      captureCore.enab.Enabled defaultScope zapcore.PanicLevel = false ∧
      captureCore.enab.Enabled defaultScope zapcore.FatalLevel = false ∧
      captureCore.enab.Enabled defaultScope zapcore.ErrorLevel = true) := by
  obtain ⟨henab, _, _, _⟩ := prepZap_ok_shape zapOpen options core captureCore errSink hprep
  rw [henab]
  refine ⟨rfl, rfl, rfl, rfl, rfl, rfl, rfl, ?_, ?_⟩
  · intro lvl h1 h2 h3
    simp only [LevelEnabler.Enabled, enabler, h1, h2, h3, if_false]
  · intro hinfo
    obtain ⟨ol, sl, lc⟩ := defaultScope
    simp only [Scope.GetOutputLevel] at hinfo
    subst hinfo
    exact ⟨rfl, rfl, rfl⟩

/-- Witness for C6: the capture core built for stdout output, with the default scope at
Info as after bootstrap. -/
theorem captureCore_gate_delegates_witness :
    stdoutCaptureCore.enab.Enabled bootRegistry.defaultScope zapcore.PanicLevel = false ∧
    stdoutCaptureCore.enab.Enabled bootRegistry.defaultScope zapcore.FatalLevel = false ∧
    stdoutCaptureCore.enab.Enabled bootRegistry.defaultScope zapcore.ErrorLevel = true :=
  (captureCore_gate_delegates openAll ghostOptions stdoutCore stdoutCaptureCore
    (.opened ["stderr"]) rfl bootRegistry.defaultScope).2.2.2.2.2.2.2.2 rfl

/-! ### `Sync` -/

theorem Configure_stores_syncFn (conv : String → Except String (String × Level))
    (zapOpen : List String → Except String WriteSyncer) (options : Options) (g : Globals)
    (core captureCore : Core) (errSink : WriteSyncer)
    (hprep : prepZap zapOpen options = .ok core captureCore errSink) :
    (Configure conv zapOpen options g).1.syncFn = some (.coreSync core) := by
  have hu := updateScopes_eq_runItems conv options core errSink g
  unfold Configure
  rw [hprep]
  rcases hr : runItems conv (directiveItems options) g.registry with ⟨r1, _ | e1⟩
  · rw [hr] at hu
    simp only [hu]
    split <;> rfl
  · rw [hr] at hu
    simp only [hu]

/-- C3 (as amended): `Sync` returns nil without calling anything when the function
stored in `syncFn` is nil; and once `Configure` has run with sinks that open, as `init()`
does with the default options when the package is loaded, `syncFn` holds the new
core's `Sync` whether or not the directives were accepted, and `Sync` calls it and
returns its result: it does not panic. -/
theorem Sync_returns_after_Configure (conv : String → Except String (String × Level))
    (zapOpen : List String → Except String WriteSyncer) (options : Options) (g : Globals)
    (core captureCore : Core) (errSink : WriteSyncer) (runSync : Core → Option String)
    (hprep : prepZap zapOpen options = .ok core captureCore errSink) :
    Sync runSync (Configure conv zapOpen options g).1 = .returned (runSync core) ∧
    Sync runSync (init conv zapOpen options g) = .returned (runSync core) ∧
    (∀ g0 : Globals, g0.syncFn = some .nilFunc → Sync runSync g0 = .returned none) := by
  have hs := Configure_stores_syncFn conv zapOpen options g core captureCore errSink hprep
  refine ⟨?_, ?_, ?_⟩
  · simp only [Sync, hs]
  · simp only [Sync, init, hs]
  · intro g0 h0
    simp only [Sync, h0]

/-- Witness for C3: after `init()` with the default options, starting from the state in
which nothing was stored, `Sync` returns what the stderr core's `Sync` returns. -/
theorem Sync_returns_after_Configure_witness :
    bootGlobals.syncFn = none ∧
    Sync (fun _ => none) (init convertScopedLevel openAll DefaultOptions bootGlobals) =
      .returned none ∧
    (init convertScopedLevel openAll DefaultOptions bootGlobals).syncFn =
      some (.coreSync { enc := .console, out := some (.opened ["stderr"]),
                        enab := .atomicLevelAt zapcore.DebugLevel }) :=
  ⟨rfl,
   (Sync_returns_after_Configure convertScopedLevel openAll DefaultOptions bootGlobals
      { enc := .console, out := some (.opened ["stderr"]),
        enab := .atomicLevelAt zapcore.DebugLevel }
      { enc := .console, out := some (.opened ["stderr"]), enab := .enablerFunc }
      (.opened ["stderr"]) (fun _ => none) rfl).2.1,
   by decide⟩

/-- Counterexample to C3 as stated: in the state the claim names, with nothing stored in
`syncFn`, `Sync` does not return nil: the one-result type assertion on the nil interface
panics before the `s != nil` test. A stored nil function, by contrast, makes `Sync`
return nil. -/
theorem Sync_panics_when_nothing_stored :
    bootGlobals.syncFn = none ∧
    Sync (fun _ => none) bootGlobals =
      .panic "interface conversion: interface \x7b\x7d is nil, not func() error" ∧
    Sync (fun _ => none) { bootGlobals with syncFn := some .nilFunc } = .returned none := by
  refine ⟨rfl, rfl, rfl⟩

end TLDataAgent.Log
